import Mathlib

/-!
Verification of the operational-health core of the repository:
`src/metrics.py` (threshold resolution, run-record scanning, consecutive-failure
SLO evaluation, health scoring) and `src/alert_dedup.py` (alert signature
normalization and the deduplication state store).

Modelling conventions:
* Python floats are modelled as exact rationals (`ℚ`); Python ints as `ℤ`/`ℕ`.
* The outcome of Python numeric parsing (`float(raw)` / `int(raw)` over an
  environment string) is modelled by an inductive: the variable is missing or
  blank, present but unparsable, or parses to a number.
* Python `datetime` values are modelled by their (UTC-normalized) calendar
  fields; comparison and subtraction go through the proleptic-Gregorian
  instant, exactly as CPython's aware-datetime comparison/subtraction does.
* The persisted dedup-state document is modelled as a value: missing file,
  unreadable/ill-shaped file, or a stored signature→timestamp mapping
  (a Python dict, i.e. an insertion-ordered list with unique keys).
-/

namespace StartRepo

/-- Outcome of reading an environment value and converting it with `float()`:
`missing` (absent or blank after `strip()`), `unparsable` (`ValueError`), or a
parsed number. -/
inductive RawFloat where
  | missing
  | unparsable
  | num (q : ℚ)
deriving DecidableEq

/-- Outcome of reading an environment value and converting it with `int()`. -/
inductive RawInt where
  | missing
  | unparsable
  | num (v : ℤ)
deriving DecidableEq

/-- `metrics._read_float_threshold`: missing/blank or unparsable values fall
back to `default`; parsed values below `minimum` return `minimum`; parsed
values above an optional `maximum` return `maximum`; otherwise the parsed
value itself. -/
def read_float_threshold (raw : RawFloat) (default : ℚ) (minimum : ℚ)
    (maximum : Option ℚ) : ℚ :=
  match raw with
  | .missing => default
  | .unparsable => default
  | .num v =>
    if v < minimum then minimum
    else
      match maximum with
      | some mx => if v > mx then mx else v
      | none => v

/-- `metrics._read_positive_int_env`: missing/unparsable values return
`default` unchanged; parsed values are raised to at least `minimum`. -/
def read_positive_int_env (raw : RawInt) (default : ℤ) (minimum : ℤ) : ℤ :=
  match raw with
  | .missing => default
  | .unparsable => default
  | .num v => max minimum v

/-- The three known pipelines (`metrics._ALLOWED_PIPELINES`). -/
inductive Pipeline where
  | daily
  | weekly
  | monthly
deriving DecidableEq

/-- The three threshold profiles (`metrics._DEFAULT_THRESHOLD_PROFILES`). -/
inductive Profile where
  | dev
  | stg
  | prod
deriving DecidableEq

/-- Per-profile per-pipeline duration defaults (seconds). -/
def profileDurationDefault : Profile → Pipeline → ℚ
  | .dev, .daily => 1800
  | .dev, .weekly => 3600
  | .dev, .monthly => 7200
  | .stg, .daily => 1200
  | .stg, .weekly => 2400
  | .stg, .monthly => 4800
  | .prod, .daily => 900
  | .prod, .weekly => 1800
  | .prod, .monthly => 3600

/-- Per-profile per-pipeline failure-rate defaults. -/
def profileFailureRateDefault : Profile → Pipeline → ℚ
  | .dev, .daily => 3/10
  | .dev, .weekly => 4/10
  | .dev, .monthly => 5/10
  | .stg, .daily => 2/10
  | .stg, .weekly => 3/10
  | .stg, .monthly => 35/100
  | .prod, .daily => 10/100
  | .prod, .weekly => 20/100
  | .prod, .monthly => 25/100

/-- The threshold-related environment surface: the profile selector
(`METRIC_THRESHOLD_PROFILE`, already `strip().lower()`-normalized here) and
the six numeric override variables. -/
structure ThresholdEnv where
  profileSelector : String
  durationRaw : Pipeline → RawFloat
  failureRateRaw : Pipeline → RawFloat

/-- `metrics.resolve_metric_threshold_profile`: the normalized selector if it
names a known profile, else `prod`. -/
def resolve_metric_threshold_profile (selector : String) : Profile :=
  if selector = "dev" then .dev
  else if selector = "stg" then .stg
  else if selector = "prod" then .prod
  else .prod

/-- `metrics.load_metric_thresholds`: per pipeline, the pair
(max_duration_sec, max_failure_rate), each resolved independently from its
own environment variable with the resolved profile's default as fallback. -/
def load_metric_thresholds (env : ThresholdEnv) : Pipeline → ℚ × ℚ :=
  let profile := resolve_metric_threshold_profile env.profileSelector
  fun p =>
    (read_float_threshold (env.durationRaw p) (profileDurationDefault profile p) 1 none,
     read_float_threshold (env.failureRateRaw p) (profileFailureRateDefault profile p) 0 (some 1))

/-! ### Health scorer (`metrics.calculate_operational_health_score`) -/

/-- One entry of the summary's `pipelines` mapping, restricted to the fields
the health scorer reads (`_to_int(item.get("runs"))`,
`_to_float(item.get("success_rate"))`). -/
structure PipelineHealthEntry where
  runs : ℤ
  success_rate : ℚ
deriving DecidableEq

/-- The summary fields the health scorer reads. -/
structure HealthInput where
  pipelines : List PipelineHealthEntry
  command_failures : ℤ
  alert_count : ℤ
deriving DecidableEq

/-- One threshold violation (`metrics.evaluate_metric_thresholds` output
entry); the health scorer only counts these. -/
structure Violation where
  pipeline : Pipeline
  metric : String
  threshold : ℚ
  observed : ℚ
deriving DecidableEq

/-- Python `round()` on an exact value: round-half-to-even. -/
def pyRound (q : ℚ) : ℤ :=
  let f := ⌊q⌋
  let frac := q - (f : ℚ)
  if frac < 1/2 then f
  else if 1/2 < frac then f + 1
  else if f % 2 = 0 then f else f + 1

/-- Success rates of the active pipelines (runs > 0), each clamped to
[0, 1] as the source does. -/
def activeSuccessRates (ps : List PipelineHealthEntry) : List ℚ :=
  (ps.filter (fun p => 0 < p.runs)).map (fun p => max 0 (min 1 p.success_rate))

/-- Average success rate across active pipelines; 0 when none are active. -/
def averageSuccessRate (ps : List PipelineHealthEntry) : ℚ :=
  let rates := activeSuccessRates ps
  if rates.isEmpty then 0 else rates.sum / rates.length

/-- Result record of the health scorer (score plus penalty breakdown). -/
structure HealthScore where
  score : ℤ
  average_success_rate : ℚ
  success_penalty : ℚ
  violation_penalty : ℚ
  command_failure_penalty : ℚ
  alert_penalty : ℚ
deriving DecidableEq

/-- `metrics.calculate_operational_health_score`. -/
def calculate_operational_health_score (summary : HealthInput)
    (violations : List Violation) : HealthScore :=
  let avg := averageSuccessRate summary.pipelines
  let commandFailures : ℤ := max 0 summary.command_failures
  let alertCount : ℤ := max 0 summary.alert_count
  let violationCount : ℕ := violations.length
  let successPenalty := (1 - avg) * 60
  let violationPenalty := min 25 ((violationCount : ℚ) * 5)
  let commandFailurePenalty := min 10 ((commandFailures : ℚ) * 2)
  let alertPenalty := min 5 ((alertCount : ℚ) * (2/10))
  let rawScore := 100 - (successPenalty + violationPenalty + commandFailurePenalty + alertPenalty)
  { score := max 0 (min 100 (pyRound rawScore))
    average_success_rate := avg
    success_penalty := successPenalty
    violation_penalty := violationPenalty
    command_failure_penalty := commandFailurePenalty
    alert_penalty := alertPenalty }

/-- Spec-side average: the plain (unclamped) average of the success rates of
exactly the pipelines with runs > 0, and 0 when no pipeline has runs. Stated
from the spec's words for comparison with `averageSuccessRate`. -/
def specAverageSuccessRate (ps : List PipelineHealthEntry) : ℚ :=
  let rates := (ps.filter (fun p => 0 < p.runs)).map (fun p => p.success_rate)
  if rates.isEmpty then 0 else rates.sum / rates.length

/-- Environment used to exhibit the clamping behavior of threshold
resolution: an explicit daily-duration override of 0.5, all else absent. -/
def clampDemoEnv : ThresholdEnv :=
  { profileSelector := ""
    durationRaw := fun p => match p with | .daily => .num (1/2) | _ => .missing
    failureRateRaw := fun _ => .missing }

/-- Environment used in the threshold-resolution witness: unknown profile
selector, an in-bounds weekly duration override, an unparsable monthly
failure-rate override. -/
def thresholdWitnessEnv : ThresholdEnv :=
  { profileSelector := "production"
    durationRaw := fun p => match p with | .weekly => .num 2500 | _ => .missing
    failureRateRaw := fun p => match p with | .monthly => .unparsable | _ => .missing }

/-! ### Python datetime model

`datetime` values are modelled by their calendar fields. Comparison and
subtraction are those of CPython aware datetimes: both go through the
proleptic-Gregorian instant (`toordinal`-based arithmetic). -/

/-- Gregorian leap-year rule. -/
def isLeapYear (y : ℕ) : Bool := y % 4 = 0 && (y % 100 != 0 || y % 400 = 0)

/-- Days in a month of a given year (0 for an invalid month number). -/
def daysInMonth (y m : ℕ) : ℕ :=
  match m with
  | 1 => 31 | 2 => if isLeapYear y then 29 else 28
  | 3 => 31 | 4 => 30 | 5 => 31 | 6 => 30 | 7 => 31 | 8 => 31
  | 9 => 30 | 10 => 31 | 11 => 30 | 12 => 31
  | _ => 0

/-- Days in year `y` strictly before month `m`. -/
def daysBeforeMonth (y m : ℕ) : ℕ :=
  (match m with
   | 1 => 0 | 2 => 31 | 3 => 59 | 4 => 90 | 5 => 120 | 6 => 151 | 7 => 181
   | 8 => 212 | 9 => 243 | 10 => 273 | 11 => 304 | 12 => 334
   | _ => 365)
  + (if 2 < m ∧ isLeapYear y then 1 else 0)

/-- Calendar fields of a Python `datetime` (UTC-normalized when aware). -/
structure PyDatetime where
  year : ℕ
  month : ℕ
  day : ℕ
  hour : ℕ
  minute : ℕ
  second : ℕ
  microsecond : ℕ
deriving DecidableEq

/-- Field validity exactly as CPython's constructor enforces it. -/
def PyDatetime.Valid (t : PyDatetime) : Prop :=
  1 ≤ t.year ∧ t.year ≤ 9999 ∧ 1 ≤ t.month ∧ t.month ≤ 12 ∧
  1 ≤ t.day ∧ t.day ≤ daysInMonth t.year t.month ∧
  t.hour ≤ 23 ∧ t.minute ≤ 59 ∧ t.second ≤ 59 ∧ t.microsecond ≤ 999999

instance (t : PyDatetime) : Decidable t.Valid := by
  unfold PyDatetime.Valid; infer_instance

/-- CPython `datetime.toordinal`: proleptic-Gregorian day number, with
0001-01-01 as day 1. -/
def toOrdinal (t : PyDatetime) : ℕ :=
  365 * (t.year - 1) + (t.year - 1) / 4 - (t.year - 1) / 100 + (t.year - 1) / 400
    + daysBeforeMonth t.year t.month + t.day

/-- Microseconds since 0001-01-01T00:00:00. Aware datetimes compare and
subtract by this instant. -/
def toInstant (t : PyDatetime) : ℤ :=
  (((toOrdinal t - 1) * 86400 + t.hour * 3600 + t.minute * 60 + t.second : ℕ) : ℤ)
    * 1000000 + (t.microsecond : ℤ)

/-- Month/day resolution inside a year for `fromOrdinal`: `d0` is the 0-based
day of the year. Fuel-based recursion over the at most 12 months. -/
def resolveMonthAux : ℕ → ℕ → ℕ → ℕ → ℕ × ℕ
  | 0, _, m, d0 => (m, d0 + 1)
  | fuel + 1, y, m, d0 =>
    if 12 ≤ m then (m, d0 + 1)
    else if d0 < daysInMonth y m then (m, d0 + 1)
    else resolveMonthAux fuel y (m + 1) (d0 - daysInMonth y m)

/-- Month/day resolution inside a year for `fromOrdinal`. -/
def resolveMonth (y m d0 : ℕ) : ℕ × ℕ :=
  resolveMonthAux 12 y m d0

/-- CPython `datetime.fromordinal` (the `_ord2ymd` algorithm). -/
def fromOrdinal (n : ℕ) : ℕ × ℕ × ℕ :=
  let n0 := n - 1
  let n400 := n0 / 146097
  let r400 := n0 % 146097
  let n100 := r400 / 36524
  let r100 := r400 % 36524
  let n4 := r100 / 1461
  let r4 := r100 % 1461
  let n1 := r4 / 365
  let r1 := r4 % 365
  let year := 400 * n400 + 100 * n100 + 4 * n4 + n1 + 1
  if n1 = 4 ∨ n100 = 4 then (year - 1, 12, 31)
  else
    let md := resolveMonth year 1 r1
    (year, md.1, md.2)

/-- Rebuild calendar fields from an instant (microseconds since
0001-01-01T00:00:00); instants before year 1 are outside the modelled
range (CPython raises there). -/
def fromInstant (i : ℤ) : PyDatetime :=
  let total := i.toNat
  let days := total / 86400000000
  let rem := total % 86400000000
  let ymd := fromOrdinal (days + 1)
  { year := ymd.1, month := ymd.2.1, day := ymd.2.2
    hour := rem / 3600000000
    minute := rem / 60000000 % 60
    second := rem / 1000000 % 60
    microsecond := rem % 1000000 }

/-- `t - timedelta(seconds=s)`. -/
def subSecondsDt (t : PyDatetime) (s : ℤ) : PyDatetime :=
  fromInstant (toInstant t - s * 1000000)

/-- `t - timedelta(days=d)`. -/
def subDaysDt (t : PyDatetime) (d : ℤ) : PyDatetime :=
  subSecondsDt t (d * 86400)

/-- `(a - b).total_seconds()` for aware datetimes, as an exact rational. -/
def elapsedSeconds (a b : PyDatetime) : ℚ :=
  ((toInstant a - toInstant b : ℤ) : ℚ) / 1000000

/-! ### ISO-8601 parsing and formatting

Model of `datetime.fromisoformat` on the grammar the program reads and
writes: `YYYY-MM-DD[<sep>HH:MM[:SS[.ffffff]]][±HH:MM[:SS]]` (fraction of
1–6 digits), preceded by the modules' own `strip()` and trailing-`Z`
replacement. -/

/-- Numeric value of a decimal digit character. -/
def digitVal (c : Char) : Option ℕ :=
  if c.isDigit then some (c.toNat - 48) else none

/-- Two fixed decimal digits. -/
def parse2 (a b : Char) : Option ℕ := do
  let x ← digitVal a
  let y ← digitVal b
  pure (10 * x + y)

/-- Four fixed decimal digits. -/
def parse4 (a b c d : Char) : Option ℕ := do
  let x ← digitVal a
  let y ← digitVal b
  let z ← digitVal c
  let w ← digitVal d
  pure (1000 * x + 100 * y + 10 * z + w)

/-- A 1–6 digit fraction, scaled to microseconds. -/
def padToMicro (ds : List Char) : ℕ :=
  (ds.foldl (fun a c => 10 * a + (c.toNat - 48)) 0) * 10 ^ (6 - ds.length)

/-- UTC-offset body `HH:MM[:SS]`, in seconds. -/
def parseOffsetTail (cs : List Char) : Option ℕ :=
  match cs with
  | [h1, h2, ':', m1, m2] => do
    let hh ← parse2 h1 h2
    let mm ← parse2 m1 m2
    if hh ≤ 23 ∧ mm ≤ 59 then pure (hh * 3600 + mm * 60) else none
  | [h1, h2, ':', m1, m2, ':', s1, s2] => do
    let hh ← parse2 h1 h2
    let mm ← parse2 m1 m2
    let ss ← parse2 s1 s2
    if hh ≤ 23 ∧ mm ≤ 59 ∧ ss ≤ 59 then pure (hh * 3600 + mm * 60 + ss) else none
  | _ => none

/-- Optional signed UTC offset: `some none` when absent, `some (some s)`
for an offset of `s` seconds, `none` on a malformed tail. -/
def parseOffset : List Char → Option (Option ℤ)
  | [] => some none
  | '+' :: rest => (parseOffsetTail rest).map (fun s => some (s : ℤ))
  | '-' :: rest => (parseOffsetTail rest).map (fun s => some (-(s : ℤ)))
  | _ => none

/-- Time-of-day part `HH:MM[:SS[.ffffff]]` plus optional offset. -/
def parseTime (cs : List Char) : Option (ℕ × ℕ × ℕ × ℕ × Option ℤ) :=
  match cs with
  | h1 :: h2 :: ':' :: m1 :: m2 :: rest => do
    let hh ← parse2 h1 h2
    let mm ← parse2 m1 m2
    match rest with
    | ':' :: s1 :: s2 :: rest2 => do
      let ss ← parse2 s1 s2
      match rest2 with
      | '.' :: rest3 =>
        let ds := rest3.takeWhile (fun c => c.isDigit)
        let after := rest3.dropWhile (fun c => c.isDigit)
        if 1 ≤ ds.length ∧ ds.length ≤ 6 then do
          let off ← parseOffset after
          pure (hh, mm, ss, padToMicro ds, off)
        else none
      | _ => do
        let off ← parseOffset rest2
        pure (hh, mm, ss, 0, off)
    | _ => do
      let off ← parseOffset rest
      pure (hh, mm, 0, 0, off)
  | _ => none

/-- `datetime.fromisoformat` over characters: calendar fields plus the
optional parsed offset, validated as CPython does. -/
def parseIsoChars (cs : List Char) : Option (PyDatetime × Option ℤ) :=
  match cs with
  | y1 :: y2 :: y3 :: y4 :: '-' :: mo1 :: mo2 :: '-' :: d1 :: d2 :: rest => do
    let y ← parse4 y1 y2 y3 y4
    let mo ← parse2 mo1 mo2
    let d ← parse2 d1 d2
    let tod ←
      match rest with
      | [] => some ((0:ℕ), (0:ℕ), (0:ℕ), (0:ℕ), (none : Option ℤ))
      | _sep :: timeChars => parseTime timeChars
    match tod with
    | (hh, mm, ss, us, off) =>
      if 1 ≤ y ∧ 1 ≤ mo ∧ mo ≤ 12 ∧ 1 ≤ d ∧ d ≤ daysInMonth y mo ∧
          hh ≤ 23 ∧ mm ≤ 59 ∧ ss ≤ 59 then
        pure ({ year := y, month := mo, day := d, hour := hh, minute := mm,
                second := ss, microsecond := us }, off)
      else none
  | _ => none

/-- Python `str.strip()` over characters. -/
def trimChars (cs : List Char) : List Char :=
  ((cs.dropWhile Char.isWhitespace).reverse.dropWhile Char.isWhitespace).reverse

/-- Shared front half of both `_parse_timestamp` helpers: `None`/blank gives
no result; a trailing `Z` is rewritten to `+00:00`; then ISO parsing. -/
def pyParseTimestampRaw (value : Option String) : Option (PyDatetime × Option ℤ) :=
  match value with
  | none => none
  | some s =>
    let cs := trimChars s.data
    if cs.isEmpty then none
    else
      let cs' := if cs.getLast? = some 'Z'
        then cs.dropLast ++ ['+', '0', '0', ':', '0', '0']
        else cs
      parseIsoChars cs'

/-- `alert_dedup._parse_timestamp`: naive values are taken as UTC; aware
values are converted to UTC (`astimezone`). -/
def parse_timestamp_utc (value : Option String) : Option PyDatetime :=
  (pyParseTimestampRaw value).map fun p =>
    match p.2 with
    | none => p.1
    | some off => if off = 0 then p.1 else fromInstant (toInstant p.1 - off * 1000000)

/-- `metrics._parse_timestamp`: any offset is dropped
(`replace(tzinfo=None)` keeps the parsed fields). -/
def parse_timestamp_naive (value : Option String) : Option PyDatetime :=
  (pyParseTimestampRaw value).map Prod.fst

/-- Two-digit zero-padded rendering. -/
def twoDigitChars (n : ℕ) : List Char :=
  [Nat.digitChar (n / 10), Nat.digitChar (n % 10)]

/-- Four-digit zero-padded rendering. -/
def fourDigitChars (n : ℕ) : List Char :=
  [Nat.digitChar (n / 1000), Nat.digitChar (n / 100 % 10),
   Nat.digitChar (n / 10 % 10), Nat.digitChar (n % 10)]

/-- Six-digit zero-padded rendering. -/
def sixDigitChars (n : ℕ) : List Char :=
  [Nat.digitChar (n / 100000), Nat.digitChar (n / 10000 % 10),
   Nat.digitChar (n / 1000 % 10), Nat.digitChar (n / 100 % 10),
   Nat.digitChar (n / 10 % 10), Nat.digitChar (n % 10)]

/-- The date-time body of `isoformat()` output: microseconds are shown only
when nonzero. -/
def formatBodyChars (t : PyDatetime) : List Char :=
  fourDigitChars t.year ++ '-' :: twoDigitChars t.month ++ '-' :: twoDigitChars t.day ++
  'T' :: twoDigitChars t.hour ++ ':' :: twoDigitChars t.minute ++ ':' :: twoDigitChars t.second ++
  (if t.microsecond = 0 then [] else '.' :: sixDigitChars t.microsecond)

/-- `alert_dedup._format_timestamp` over characters: `isoformat()` of a UTC
datetime with the `+00:00` suffix replaced by `Z`. -/
def formatTimestampChars (t : PyDatetime) : List Char :=
  formatBodyChars t ++ ['Z']

/-- `alert_dedup._format_timestamp`. -/
def format_timestamp (t : PyDatetime) : String :=
  String.mk (formatTimestampChars t)

/-! ### Alert signature codec (`alert_dedup`)

`build_alert_signature` hashes the normalized message with SHA-256; the hash
function is abstracted as a parameter `hash` applied pointwise to the
normalized message, which is exactly how the source composes them. -/

/-- ASCII lower-casing of one character, modelling `str.lower()` on the
ASCII range. -/
def lowerChar : Char → Char
  | 'A' => 'a' | 'B' => 'b' | 'C' => 'c' | 'D' => 'd' | 'E' => 'e' | 'F' => 'f'
  | 'G' => 'g' | 'H' => 'h' | 'I' => 'i' | 'J' => 'j' | 'K' => 'k' | 'L' => 'l'
  | 'M' => 'm' | 'N' => 'n' | 'O' => 'o' | 'P' => 'p' | 'Q' => 'q' | 'R' => 'r'
  | 'S' => 's' | 'T' => 't' | 'U' => 'u' | 'V' => 'v' | 'W' => 'w' | 'X' => 'x'
  | 'Y' => 'y' | 'Z' => 'z'
  | c => c

/-- `re.sub(r"\s+", " ", ·)`: replace each maximal whitespace run by one
space. The flag records whether the previous character was whitespace. -/
def collapseWSAux : List Char → Bool → List Char
  | [], _ => []
  | c :: cs, prevWs =>
    if c.isWhitespace then
      if prevWs then collapseWSAux cs true
      else ' ' :: collapseWSAux cs true
    else c :: collapseWSAux cs false

/-- `re.sub(r"\s+", " ", ·)` over characters. -/
def collapseWS (cs : List Char) : List Char := collapseWSAux cs false

/-- Split at the first `]`: characters strictly before it and the rest
strictly after it; `none` when there is no `]`. -/
def splitAtRBracket : List Char → Option (List Char × List Char)
  | [] => none
  | c :: cs =>
    if c = ']' then some ([], cs)
    else (splitAtRBracket cs).map (fun p => (c :: p.1, p.2))

/-- `re.sub(r"^\[[^\]]+\]\s*", "", ·)`: drop a leading non-empty bracketed
prefix together with the whitespace right after it; otherwise leave the
input unchanged. -/
def stripTimestampPrefix (cs : List Char) : List Char :=
  match cs with
  | c :: rest =>
    if c = '[' then
      match splitAtRBracket rest with
      | some (before, after) =>
        if before.isEmpty then cs
        else after.dropWhile Char.isWhitespace
      | none => cs
    else cs
  | [] => cs

/-- `alert_dedup._normalize_alert_message` over characters: strip, drop the
timestamp prefix, collapse whitespace, strip again, lower-case. -/
def normalizeChars (cs : List Char) : List Char :=
  (trimChars (collapseWS (stripTimestampPrefix (trimChars cs)))).map lowerChar

/-- `alert_dedup._normalize_alert_message`. -/
def normalize_alert_message (line : String) : String :=
  String.mk (normalizeChars line.data)

/-- `alert_dedup.build_alert_signature`, with the SHA-256 hex digest
abstracted as `hash`. -/
def build_alert_signature (hash : String → String) (line : String) : String :=
  hash (normalize_alert_message line)

/-! ### Dedup state store (`alert_dedup`) -/

/-- The in-memory state: a Python dict signature → timestamp string, i.e.
an insertion-ordered list with unique keys. -/
abbrev DedupState := List (String × String)

/-- Python `dict.get`. -/
def dictGet : DedupState → String → Option String
  | [], _ => none
  | (k', v) :: rest, k => if k' = k then some v else dictGet rest k

/-- Python `dict.__setitem__`: update in place when the key exists, else
append. -/
def dictSet : DedupState → String → String → DedupState
  | [], k, v => [(k, v)]
  | (k', v') :: rest, k, v =>
    if k' = k then (k, v) :: rest else (k', v') :: dictSet rest k v

/-- The persisted dedup-state document: missing file, unreadable or
ill-shaped file, or a stored mapping. -/
inductive StoredDoc where
  | missing
  | corrupt
  | stored (m : DedupState)
deriving DecidableEq

/-- `alert_dedup.load_alert_dedup_state`: a missing or unreadable document
is an empty mapping. -/
def load_alert_dedup_state : StoredDoc → DedupState
  | .missing => []
  | .corrupt => []
  | .stored m => m

/-- `alert_dedup.save_alert_dedup_state`: the atomically persisted document
holding exactly the given mapping. -/
def save_alert_dedup_state (m : DedupState) : StoredDoc := .stored m

/-- The retain/remove loop of `_prune_state_entries`: keep entries whose
timestamp does not parse or parses to a time at or after the cutoff. -/
def pruneLoop (cutoff : PyDatetime) : DedupState → DedupState × ℕ
  | [] => ([], 0)
  | (sig, ts) :: rest =>
    let r := pruneLoop cutoff rest
    match parse_timestamp_utc (some ts) with
    | none => ((sig, ts) :: r.1, r.2)
    | some parsed =>
      if toInstant cutoff ≤ toInstant parsed then ((sig, ts) :: r.1, r.2)
      else (r.1, r.2 + 1)

/-- `alert_dedup._prune_state_entries`. -/
def prune_state_entries (state : DedupState) (ttl : ℤ) (now : PyDatetime) :
    DedupState × ℕ :=
  if ttl ≤ 0 then (state, 0)
  else pruneLoop (subSecondsDt now ttl) state

/-- `alert_dedup._load_state_with_prune`: pruned state, removed count,
pre-prune entry count, and the document as it stands after the call (it is
rewritten only when pruning removed something). -/
def load_state_with_prune (doc : StoredDoc) (ttl : ℤ) (now : PyDatetime) :
    DedupState × ℕ × ℕ × StoredDoc :=
  let state := load_alert_dedup_state doc
  let pr := prune_state_entries state ttl now
  (pr.1, pr.2, state.length, if 0 < pr.2 then save_alert_dedup_state pr.1 else doc)

/-- `alert_dedup.should_emit_signature`. -/
def should_emit_signature (lastSent : Option String) (cooldown : ℤ)
    (now : PyDatetime) : Bool :=
  if cooldown ≤ 0 then true
  else
    match parse_timestamp_utc lastSent with
    | none => true
    | some last => decide ((cooldown : ℚ) ≤ elapsedSeconds now last)

/-- Result record of `should_emit_and_update_state`. -/
structure EmitResult where
  send : Bool
  signature : String
  last_sent : Option String
  cooldown_sec : ℤ
  ttl_sec : ℤ
  pruned_count : ℕ
  sent_at : Option String
deriving DecidableEq

/-- `alert_dedup.should_emit_and_update_state` with an explicit TTL (the
`ttl_sec=None` path resolves the same nonnegative value from the
environment). Returns the result record and the persisted document as it
stands when the call returns. -/
def should_emit_and_update_state (hash : String → String) (doc : StoredDoc)
    (line : String) (cooldownSec ttlSec : ℤ) (now : PyDatetime) :
    EmitResult × StoredDoc :=
  let effTtl := max 0 ttlSec
  let cd := max 0 cooldownSec
  let sig := build_alert_signature hash line
  let lp := load_state_with_prune doc effTtl now
  let state := lp.1
  let lastSent := dictGet state sig
  let send := should_emit_signature lastSent cd now
  if send then
    let sentAt := format_timestamp now
    ({ send := true, signature := sig, last_sent := lastSent, cooldown_sec := cd,
       ttl_sec := effTtl, pruned_count := lp.2.1, sent_at := some sentAt },
     save_alert_dedup_state (dictSet state sig sentAt))
  else
    ({ send := false, signature := sig, last_sent := lastSent, cooldown_sec := cd,
       ttl_sec := effTtl, pruned_count := lp.2.1, sent_at := none },
     lp.2.2.2)

/-- Result record of `reset_alert_dedup_state`; `backupDoc` is the content
of the timestamped backup file when one was written, `finalDoc` the state
document after the reset. -/
structure ResetResult where
  existed : Bool
  pruned_count : ℕ
  entry_count_before_prune : ℕ
  entry_count_before : ℕ
  entry_count_after : ℕ
  backupDoc : Option StoredDoc
  finalDoc : StoredDoc
deriving DecidableEq

/-- `alert_dedup.reset_alert_dedup_state` with the environment TTL passed
explicitly. Note the order: the load-and-prune (which rewrites the file when
it removed entries) happens before the backup copy. -/
def reset_alert_dedup_state (doc : StoredDoc) (backup : Bool) (ttl : ℤ)
    (now : PyDatetime) : ResetResult :=
  let lp := load_state_with_prune doc ttl now
  let docAfterPrune := lp.2.2.2
  let existed := match docAfterPrune with
    | .missing => false
    | _ => true
  let backupDoc := if existed && backup then some docAfterPrune else none
  { existed := existed
    pruned_count := lp.2.1
    entry_count_before_prune := lp.2.2.1
    entry_count_before := lp.1.length
    entry_count_after := 0
    backupDoc := backupDoc
    finalDoc := save_alert_dedup_state [] }

/-- The `entry_count` field of `summarize_alert_dedup_state`: the size of
the loaded (and opportunistically pruned) state. -/
def summarize_entry_count (doc : StoredDoc) (ttl : ℤ) (now : PyDatetime) : ℕ :=
  (load_state_with_prune doc ttl now).1.length

/-- Retention predicate of the pruning pass: an entry survives iff its
timestamp does not parse or parses to a time at or after the cutoff. -/
def retainEntry (cutoff : PyDatetime) (e : String × String) : Bool :=
  match parse_timestamp_utc (some e.2) with
  | none => true
  | some p => decide (toInstant cutoff ≤ toInstant p)

/-! ### Run record scanner (`metrics.summarize_pipeline_metrics`)

The directory walk and JSON decoding are out of scope: the input is the list
of decoded run documents in scan order (unreadable or non-object files are
skipped before this point). -/

/-- The fields of one decoded run-telemetry document, after the source's
lenient decoding (`str(...)`, `bool(...)`, `_to_float`, `_to_int`). -/
structure RunPayload where
  pipeline : String
  finished_at : Option String
  started_at : Option String
  success : Bool
  duration_sec : ℚ
  command_failures : ℤ
  alert_count : ℤ
deriving DecidableEq

/-- `str(payload.get("pipeline", "")).strip().lower()` checked against the
three known pipelines. -/
def normalizePipeline (s : String) : Option Pipeline :=
  let t := String.mk ((trimChars s.data).map lowerChar)
  if t = "daily" then some .daily
  else if t = "weekly" then some .weekly
  else if t = "monthly" then some .monthly
  else none

/-- `str(payload.get("finished_at") or payload.get("started_at") or
"").strip()`: Python `or` falls through on `None` and on the empty
string. -/
def resolvedTimestampText (doc : RunPayload) : String :=
  let raw := match doc.finished_at with
    | some s => if s = "" then (match doc.started_at with
        | some t => t
        | none => "") else s
    | none => match doc.started_at with
      | some t => t
      | none => ""
  String.mk (trimChars raw.data)

/-- Per-pipeline accumulator of the scan loop. -/
structure PipelineStats where
  runs : ℕ
  success_count : ℕ
  duration_total : ℚ
  max_duration_sec : ℚ
  latest_ts_text : String
  latest_success : Bool
  latest_dt : PyDatetime
deriving DecidableEq

/-- The `setdefault` initial value; `latest_dt` starts at `datetime.min`. -/
def initStats : PipelineStats :=
  { runs := 0, success_count := 0, duration_total := 0, max_duration_sec := 0
    latest_ts_text := "", latest_success := false
    latest_dt := { year := 1, month := 1, day := 1, hour := 0, minute := 0,
                   second := 0, microsecond := 0 } }

/-- Whole-scan accumulator; a `none` pipeline slot means the key was never
created. -/
structure ScanAcc where
  daily : Option PipelineStats
  weekly : Option PipelineStats
  monthly : Option PipelineStats
  total_command_failures : ℤ
  total_alert_count : ℤ
  included_runs : ℕ
deriving DecidableEq

/-- Initial accumulator. -/
def initAcc : ScanAcc :=
  { daily := none, weekly := none, monthly := none
    total_command_failures := 0, total_alert_count := 0, included_runs := 0 }

/-- Pipeline slot read. -/
def getStats (acc : ScanAcc) : Pipeline → Option PipelineStats
  | .daily => acc.daily
  | .weekly => acc.weekly
  | .monthly => acc.monthly

/-- Pipeline slot write. -/
def setStats (acc : ScanAcc) (p : Pipeline) (st : PipelineStats) : ScanAcc :=
  match p with
  | .daily => { acc with daily := some st }
  | .weekly => { acc with weekly := some st }
  | .monthly => { acc with monthly := some st }

/-- The per-record stats update: counts, duration total and max, and the
latest-run snapshot (ties broken by `>=`, i.e. last seen wins). -/
def updateStats (st : PipelineStats) (t : PyDatetime) (text : String)
    (doc : RunPayload) : PipelineStats :=
  let st1 := { st with
    runs := st.runs + 1
    success_count := st.success_count + (if doc.success then 1 else 0)
    duration_total := st.duration_total + doc.duration_sec
    max_duration_sec := if doc.duration_sec > st.max_duration_sec
      then doc.duration_sec else st.max_duration_sec }
  if toInstant st.latest_dt ≤ toInstant t then
    { st1 with latest_dt := t, latest_ts_text := text, latest_success := doc.success }
  else st1

/-- One iteration of the scan loop: skip on unknown pipeline, unparsable
timestamp, or a timestamp before the window start; otherwise accumulate. -/
def scanStep (windowStart : Option PyDatetime) (acc : ScanAcc)
    (doc : RunPayload) : ScanAcc :=
  match normalizePipeline doc.pipeline with
  | none => acc
  | some p =>
    let text := resolvedTimestampText doc
    match parse_timestamp_naive (some text) with
    | none => acc
    | some t =>
      if (match windowStart with
          | some w => decide (toInstant t < toInstant w)
          | none => false) then acc
      else
        let acc1 := setStats acc p (updateStats ((getStats acc p).getD initStats) t text doc)
        { acc1 with
          total_command_failures := acc1.total_command_failures + doc.command_failures
          total_alert_count := acc1.total_alert_count + doc.alert_count
          included_runs := acc1.included_runs + 1 }

/-- One pipeline's entry of the summary's `pipelines` mapping. -/
structure PipelineSummary where
  runs : ℕ
  success_rate : ℚ
  avg_duration_sec : ℚ
  max_duration_sec : ℚ
  latest_ts : String
  latest_success : Bool
deriving DecidableEq

/-- Finalize one pipeline's stats into its summary row. -/
def finalizeStats (st : PipelineStats) : PipelineSummary :=
  { runs := st.runs
    success_rate := if st.runs = 0 then 0 else (st.success_count : ℚ) / st.runs
    avg_duration_sec := if st.runs = 0 then 0 else st.duration_total / st.runs
    max_duration_sec := st.max_duration_sec
    latest_ts := st.latest_ts_text
    latest_success := st.latest_success }

/-- The summary record built by `summarize_pipeline_metrics`. -/
structure MetricsSummary where
  days : ℤ
  window_start : Option PyDatetime
  total_runs : ℕ
  daily : Option PipelineSummary
  weekly : Option PipelineSummary
  monthly : Option PipelineSummary
  total_command_failures : ℤ
  total_alert_count : ℤ
deriving DecidableEq

/-- `metrics.summarize_pipeline_metrics` over decoded documents:
`window_start = now - days` when `days > 0` (else unbounded), records with
`timestamp < window_start` are skipped, and per-pipeline aggregates are
accumulated in scan order. -/
def summarize_pipeline_metrics (days : ℤ) (now : PyDatetime)
    (docs : List RunPayload) : MetricsSummary :=
  let windowStart := if days ≤ 0 then none else some (subDaysDt now days)
  let acc := docs.foldl (scanStep windowStart) initAcc
  { days := days
    window_start := windowStart
    total_runs := acc.included_runs
    daily := acc.daily.map finalizeStats
    weekly := acc.weekly.map finalizeStats
    monthly := acc.monthly.map finalizeStats
    total_command_failures := acc.total_command_failures
    total_alert_count := acc.total_alert_count }

/-- The scanner's effective inclusion predicate: known pipeline, parsable
timestamp, and (when a window start exists) a timestamp at or after it.
There is no upper bound. -/
def includedInWindow (windowStart : Option PyDatetime) (doc : RunPayload) : Bool :=
  match normalizePipeline doc.pipeline with
  | none => false
  | some _ =>
    match parse_timestamp_naive (some (resolvedTimestampText doc)) with
    | none => false
    | some t =>
      match windowStart with
      | some w => decide (toInstant w ≤ toInstant t)
      | none => true

/-- The run-summary row count of a pipeline slot (0 when absent). -/
def optRuns : Option PipelineSummary → ℕ
  | none => 0
  | some s => s.runs

/-- The run count of a scan slot (0 when the key was never created). -/
def statsRuns : Option PipelineStats → ℕ
  | none => 0
  | some st => st.runs

/-- The summary's `pipelines` mapping as a function. -/
def getSummary (s : MetricsSummary) : Pipeline → Option PipelineSummary
  | .daily => s.daily
  | .weekly => s.weekly
  | .monthly => s.monthly

/-- A run document dated after `nowJune2024`, used to exhibit the missing
upper window bound. -/
def futureDoc : RunPayload :=
  { pipeline := "daily", finished_at := some "2024-06-10T00:00:00"
    started_at := none, success := true, duration_sec := 10
    command_failures := 0, alert_count := 0 }

/-- A concrete reference time used by several witnesses. -/
def nowJune2024 : PyDatetime :=
  { year := 2024, month := 6, day := 5, hour := 12, minute := 0, second := 0,
    microsecond := 0 }

/-- A concrete dedup state: one fresh entry, one expired entry, one entry
with an unparsable timestamp. -/
def dedupDemoState : DedupState :=
  [("sigA", "2024-06-01T00:00:00Z"),
   ("sigB", "2020-01-01T00:00:00Z"),
   ("sigC", "not-a-timestamp")]

/-- Concrete summary input used in the health-score witness: one active
pipeline at 100% success, no failures and no alerts. -/
def healthWitnessInput : HealthInput :=
  { pipelines := [{ runs := 1, success_rate := 1 }]
    command_failures := 0
    alert_count := 0 }

/-! ### Consecutive-failure SLO evaluation
(`metrics.evaluate_consecutive_slo_alert`) -/

/-- One in-window run record as accumulated into `per_pipeline_runs`:
the parsed timestamp, the `success` flag, and the raw timestamp text. -/
structure SloRun where
  timestamp : PyDatetime
  success : Bool
  timestamp_text : String
deriving DecidableEq

/-- Alert severity levels, ranked `none < warning < critical`. -/
inductive Severity where
  | none
  | warning
  | critical
deriving DecidableEq

/-- The `severity_rank` table of `evaluate_consecutive_slo_alert`. -/
def severityRank : Severity → ℕ
  | .none => 0
  | .warning => 1
  | .critical => 2

/-- One entry of the `violated_pipelines` list. -/
structure SloViolation where
  pipeline : Pipeline
  consecutive_failures : ℕ
  latest_run : String
  severity : Severity
deriving DecidableEq

/-- Result document of `evaluate_consecutive_slo_alert`. -/
structure SloResult where
  limit : ℤ
  warning_limit : ℤ
  critical_limit : ℤ
  severity : Severity
  active : Bool
  violated_pipelines : List SloViolation
deriving DecidableEq

/-- Newest-first ordering used by `sorted(runs, key=item[0], reverse=True)`:
`a` may precede `b` when `a`'s timestamp is at least `b`'s. -/
def newerEq (a b : SloRun) : Prop :=
  toInstant b.timestamp ≤ toInstant a.timestamp

instance : DecidableRel newerEq :=
  fun a b => Int.decLe (toInstant b.timestamp) (toInstant a.timestamp)

instance : IsTotal SloRun newerEq :=
  ⟨fun a b => le_total (toInstant b.timestamp) (toInstant a.timestamp)⟩

instance : IsTrans SloRun newerEq :=
  ⟨fun _ _ _ hab hbc => le_trans hbc hab⟩

/-- Stable descending sort by timestamp: Python's `sorted` is stable, so
runs with equal timestamps keep their file order. -/
def sortRunsDesc (runs : List SloRun) : List SloRun :=
  runs.insertionSort newerEq

/-- The streak loop: failures are counted from the newest run and the loop
breaks at the first success. -/
def leadingFailures : List SloRun → ℕ
  | [] => 0
  | r :: rs => if r.success then 0 else leadingFailures rs + 1

/-- `latest_timestamp` is captured at loop index 0 and stays `""` when the
pipeline has no runs. -/
def latestRunText : List SloRun → String
  | [] => ""
  | r :: _ => r.timestamp_text

/-- One iteration of the reporting loop over a pipeline key. -/
def sloStep (wl cl : ℤ) (runsFor : Pipeline → List SloRun)
    (acc : Severity × List SloViolation) (p : Pipeline) :
    Severity × List SloViolation :=
  let runs := sortRunsDesc (runsFor p)
  let consecutive_failures := leadingFailures runs
  let latest_timestamp := latestRunText runs
  if wl ≤ (consecutive_failures : ℤ) then
    let pipeline_severity :=
      if cl ≤ (consecutive_failures : ℤ) then Severity.critical
      else Severity.warning
    let overall :=
      if severityRank acc.1 < severityRank pipeline_severity then
        pipeline_severity
      else acc.1
    (overall,
     acc.2 ++ [{ pipeline := p
                 consecutive_failures := consecutive_failures
                 latest_run := latest_timestamp
                 severity := pipeline_severity }])
  else acc

/-- The keys of `per_pipeline_runs` in `sorted` (alphabetical) order
`daily < monthly < weekly`; a pipeline becomes a key only once a run was
stored for it. -/
def sloPipelines (runsFor : Pipeline → List SloRun) : List Pipeline :=
  [Pipeline.daily, Pipeline.monthly, Pipeline.weekly].filter
    (fun p => !(runsFor p).isEmpty)

/-- `metrics.evaluate_consecutive_slo_alert` over decoded in-window runs:
resolves the warning limit (env default 3, minimum 1) and the critical
limit (env default 5, minimum the warning limit), then reports each stored
pipeline whose leading-failure streak reaches the warning limit, marking it
critical when the streak also reaches the critical limit. -/
def evaluate_consecutive_slo_alert (warnRaw critRaw : RawInt)
    (runsFor : Pipeline → List SloRun) : SloResult :=
  let consecutive_limit := read_positive_int_env warnRaw 3 1
  let critical_limit := read_positive_int_env critRaw 5 consecutive_limit
  let r := (sloPipelines runsFor).foldl
    (sloStep consecutive_limit critical_limit runsFor) (Severity.none, [])
  { limit := consecutive_limit
    warning_limit := consecutive_limit
    critical_limit := critical_limit
    severity := r.1
    active := decide (r.1 ≠ Severity.none)
    violated_pipelines := r.2 }

/-- Seven consecutive failing daily runs, oldest first in file order. -/
def sloDemoRuns : List SloRun :=
  [⟨⟨2024, 6, 1, 0, 0, 0, 0⟩, false, "2024-06-01T00:00:00"⟩,
   ⟨⟨2024, 6, 2, 0, 0, 0, 0⟩, false, "2024-06-02T00:00:00"⟩,
   ⟨⟨2024, 6, 3, 0, 0, 0, 0⟩, false, "2024-06-03T00:00:00"⟩,
   ⟨⟨2024, 6, 4, 0, 0, 0, 0⟩, false, "2024-06-04T00:00:00"⟩,
   ⟨⟨2024, 6, 5, 0, 0, 0, 0⟩, false, "2024-06-05T00:00:00"⟩,
   ⟨⟨2024, 6, 6, 0, 0, 0, 0⟩, false, "2024-06-06T00:00:00"⟩,
   ⟨⟨2024, 6, 7, 0, 0, 0, 0⟩, false, "2024-06-07T00:00:00"⟩]

/-- A run table giving the seven failing runs to the daily pipeline only. -/
def sloDemoRunsFor : Pipeline → List SloRun
  | .daily => sloDemoRuns
  | .weekly => []
  | .monthly => []

/-! ## Theorems -/

section Theorems

private lemma clamp01_of_bounds {q : ℚ} (h0 : 0 ≤ q) (h1 : q ≤ 1) :
    max 0 (min 1 q) = q := by
  rw [min_eq_right h1, max_eq_right h0]

private lemma pyRound_intCast (n : ℤ) : pyRound (n : ℚ) = n := by
  unfold pyRound
  rw [Int.floor_intCast]
  norm_num

private lemma activeSuccessRates_eq_of_bounds {ps : List PipelineHealthEntry}
    (h0 : ∀ e ∈ ps, 0 ≤ e.success_rate) (h1 : ∀ e ∈ ps, e.success_rate ≤ 1) :
    activeSuccessRates ps = (ps.filter (fun p => 0 < p.runs)).map (fun p => p.success_rate) := by
  unfold activeSuccessRates
  apply List.map_congr_left
  intro e he
  have he' := List.mem_of_mem_filter he
  exact clamp01_of_bounds (h0 e he') (h1 e he')

private lemma averageSuccessRate_eq_spec_of_bounds {ps : List PipelineHealthEntry}
    (h0 : ∀ e ∈ ps, 0 ≤ e.success_rate) (h1 : ∀ e ∈ ps, e.success_rate ≤ 1) :
    averageSuccessRate ps = specAverageSuccessRate ps := by
  unfold averageSuccessRate specAverageSuccessRate
  rw [activeSuccessRates_eq_of_bounds h0 h1]

/-- C3 counterexample: with the daily duration override present and parsing
to 0.5 (below the 1.0 bound), the resolved daily duration threshold is the
clamped bound 1.0 — not the prod-profile default 900 that the claim's
"otherwise it equals the resolved profile's default" clause demands. -/
theorem c3_out_of_bounds_override_is_clamped_not_defaulted :
    (load_metric_thresholds clampDemoEnv Pipeline.daily).1 = 1 ∧
    profileDurationDefault
      (resolve_metric_threshold_profile clampDemoEnv.profileSelector) Pipeline.daily = 900 ∧
    ((1 : ℚ) ≠ 900) := by
  refine ⟨?_, rfl, by norm_num⟩
  show (if (1:ℚ)/2 < 1 then (1:ℚ) else (1:ℚ)/2) = 1
  norm_num

/-- C3 (amended): each of the six sub-thresholds is resolved independently
from its own override variable; a missing or unparsable override yields the
resolved profile's default, and a parsed override is clamped into bounds
(duration: raised to at least 1.0; failure rate: clamped into [0, 1]) rather
than discarded; the profile selector falls back to `prod` when it names none
of dev/stg/prod. -/
theorem c3_threshold_resolution (env : ThresholdEnv) (p : Pipeline) :
    ((load_metric_thresholds env p).1 =
      (match env.durationRaw p with
       | .missing => profileDurationDefault
           (resolve_metric_threshold_profile env.profileSelector) p
       | .unparsable => profileDurationDefault
           (resolve_metric_threshold_profile env.profileSelector) p
       | .num v => max 1 v)) ∧
    ((load_metric_thresholds env p).2 =
      (match env.failureRateRaw p with
       | .missing => profileFailureRateDefault
           (resolve_metric_threshold_profile env.profileSelector) p
       | .unparsable => profileFailureRateDefault
           (resolve_metric_threshold_profile env.profileSelector) p
       | .num v => max 0 (min 1 v))) ∧
    (env.profileSelector ≠ "dev" → env.profileSelector ≠ "stg" →
      env.profileSelector ≠ "prod" →
      resolve_metric_threshold_profile env.profileSelector = .prod) := by
  refine ⟨?_, ?_, ?_⟩
  · show read_float_threshold (env.durationRaw p) _ 1 none = _
    cases env.durationRaw p with
    | missing => rfl
    | unparsable => rfl
    | num v =>
      show (if v < 1 then (1:ℚ) else v) = max 1 v
      rcases lt_or_le v 1 with hv | hv
      · rw [if_pos hv, max_eq_left hv.le]
      · rw [if_neg (not_lt.mpr hv), max_eq_right hv]
  · show read_float_threshold (env.failureRateRaw p) _ 0 (some 1) = _
    cases env.failureRateRaw p with
    | missing => rfl
    | unparsable => rfl
    | num v =>
      show (if v < 0 then (0:ℚ) else if v > 1 then 1 else v) = max 0 (min 1 v)
      rcases lt_or_le v 0 with hv | hv
      · rw [if_pos hv, min_eq_right (by linarith : v ≤ 1),
          max_eq_left (le_of_lt hv)]
      · rw [if_neg (not_lt.mpr hv)]
        rcases lt_or_le 1 v with hv1 | hv1
        · rw [if_pos hv1, min_eq_left hv1.le,
            max_eq_right (by norm_num : (0:ℚ) ≤ 1)]
        · rw [if_neg (not_lt.mpr hv1), min_eq_right hv1, max_eq_right hv]
  · intro h1 h2 h3
    unfold resolve_metric_threshold_profile
    rw [if_neg h1, if_neg h2, if_neg h3]

/-- Witness for `c3_threshold_resolution` at a concrete environment. -/
theorem c3_threshold_resolution_witness :
    (load_metric_thresholds thresholdWitnessEnv Pipeline.weekly).1 = 2500 ∧
    (load_metric_thresholds thresholdWitnessEnv Pipeline.monthly).2 = 25/100 ∧
    resolve_metric_threshold_profile thresholdWitnessEnv.profileSelector = .prod := by
  have hw := (c3_threshold_resolution thresholdWitnessEnv Pipeline.weekly).1
  have hm := (c3_threshold_resolution thresholdWitnessEnv Pipeline.monthly).2.1
  have hp := (c3_threshold_resolution thresholdWitnessEnv Pipeline.weekly).2.2
    (by decide) (by decide) (by decide)
  refine ⟨?_, ?_, hp⟩
  · rw [hw]
    show max (1:ℚ) 2500 = 2500
    norm_num
  · rw [hm]
    show profileFailureRateDefault
      (resolve_metric_threshold_profile thresholdWitnessEnv.profileSelector)
      Pipeline.monthly = 25/100
    rw [hp]
    norm_num [profileFailureRateDefault]

/-- C7: the health score equals
`clamp(round(100 - ((1-avg)*60 + min(25, v*5) + min(10, cf*2) + min(5, ac*0.2))), 0, 100)`
with `avg` the plain average of the success rates of exactly the pipelines
with runs > 0 (0 when none); all-perfect inputs score 100 and the described
worst-case inputs score 0. Rounding is Python's `round` (half-to-even);
success rates are assumed to lie in [0, 1] and the totals to be nonnegative,
as the scanner guarantees. -/
theorem c7_health_score_formula (s : HealthInput) (viol : List Violation)
    (h0 : ∀ e ∈ s.pipelines, 0 ≤ e.success_rate)
    (h1 : ∀ e ∈ s.pipelines, e.success_rate ≤ 1)
    (hcf : 0 ≤ s.command_failures) (hac : 0 ≤ s.alert_count) :
    ((calculate_operational_health_score s viol).score =
      max 0 (min 100 (pyRound (100 -
        ((1 - specAverageSuccessRate s.pipelines) * 60
          + min 25 ((viol.length : ℚ) * 5)
          + min 10 ((s.command_failures : ℚ) * 2)
          + min 5 ((s.alert_count : ℚ) * (2/10)))))))
    ∧ ((∀ e ∈ s.pipelines, 0 < e.runs → e.success_rate = 1) →
        (∃ e ∈ s.pipelines, 0 < e.runs) →
        viol = [] → s.command_failures = 0 → s.alert_count = 0 →
        (calculate_operational_health_score s viol).score = 100)
    ∧ (specAverageSuccessRate s.pipelines = 0 →
        5 ≤ viol.length → 5 ≤ s.command_failures → 25 ≤ s.alert_count →
        (calculate_operational_health_score s viol).score = 0) := by
  have havg : averageSuccessRate s.pipelines = specAverageSuccessRate s.pipelines :=
    averageSuccessRate_eq_spec_of_bounds h0 h1
  have hscore : (calculate_operational_health_score s viol).score =
      max 0 (min 100 (pyRound (100 -
        ((1 - averageSuccessRate s.pipelines) * 60
          + min 25 ((viol.length : ℚ) * 5)
          + min 10 (((max 0 s.command_failures : ℤ) : ℚ) * 2)
          + min 5 (((max 0 s.alert_count : ℤ) : ℚ) * (2/10)))))) := rfl
  have hmain : (calculate_operational_health_score s viol).score =
      max 0 (min 100 (pyRound (100 -
        ((1 - specAverageSuccessRate s.pipelines) * 60
          + min 25 ((viol.length : ℚ) * 5)
          + min 10 ((s.command_failures : ℚ) * 2)
          + min 5 ((s.alert_count : ℚ) * (2/10)))))) := by
    rw [hscore, havg, max_eq_right hcf, max_eq_right hac]
  refine ⟨hmain, ?_, ?_⟩
  · intro hall ⟨e, he, hr⟩ hv hc ha
    have hmem : e ∈ s.pipelines.filter (fun p => 0 < p.runs) :=
      List.mem_filter.mpr ⟨he, by simpa using hr⟩
    have hne : s.pipelines.filter (fun p => 0 < p.runs) ≠ [] :=
      List.ne_nil_of_mem hmem
    have havg1 : specAverageSuccessRate s.pipelines = 1 := by
      unfold specAverageSuccessRate
      have hones : ∀ q ∈ (s.pipelines.filter (fun p => 0 < p.runs)).map
          (fun p => p.success_rate), q = 1 := by
        intro q hq
        obtain ⟨x, hx, rfl⟩ := List.mem_map.mp hq
        obtain ⟨hx1, hx2⟩ := List.mem_filter.mp hx
        exact hall x hx1 (by simpa using hx2)
      have hsum := List.sum_eq_card_nsmul _ 1 hones
      have hlen : ((s.pipelines.filter (fun p => 0 < p.runs)).map
          (fun p => p.success_rate)).length ≠ 0 := by
        simpa [List.length_eq_zero] using hne
      simp only [List.isEmpty_iff]
      rw [if_neg (by simpa [List.length_eq_zero] using hlen)]
      rw [hsum, nsmul_eq_mul, mul_one, List.length_map]
      have hpos : (0:ℚ) < ((s.pipelines.filter (fun p => 0 < p.runs)).length : ℚ) := by
        exact_mod_cast List.length_pos.mpr hne
      exact div_self (ne_of_gt hpos)
    have h100 : pyRound ((100:ℚ)) = 100 := by
      rw [show (100:ℚ) = ((100:ℤ):ℚ) by norm_num, pyRound_intCast]
    rw [hmain, havg1, hv, hc, ha]
    norm_num [h100]
  · intro havg0 hv5 hc5 ha25
    have hvq : (25:ℚ) ≤ (viol.length : ℚ) * 5 := by
      have : (5:ℚ) ≤ (viol.length : ℚ) := by exact_mod_cast hv5
      linarith
    have hcq : (10:ℚ) ≤ (s.command_failures : ℚ) * 2 := by
      have : (5:ℚ) ≤ (s.command_failures : ℚ) := by exact_mod_cast hc5
      linarith
    have haq : (5:ℚ) ≤ (s.alert_count : ℚ) * (2/10) := by
      have : (25:ℚ) ≤ (s.alert_count : ℚ) := by exact_mod_cast ha25
      linarith
    have hz : pyRound ((0:ℚ)) = 0 := by
      rw [show (0:ℚ) = ((0:ℤ):ℚ) by norm_num, pyRound_intCast]
    rw [hmain, havg0, min_eq_left hvq, min_eq_left hcq, min_eq_left haq]
    norm_num [hz]

/-- Witness for `c7_health_score_formula`: the perfect-input endpoint at a
concrete summary. -/
theorem c7_health_score_formula_witness :
    (calculate_operational_health_score healthWitnessInput []).score = 100 := by
  refine (c7_health_score_formula healthWitnessInput [] ?_ ?_ ?_ ?_).2.1 ?_ ?_ rfl rfl rfl
  · intro e he
    rw [show healthWitnessInput.pipelines = [{ runs := 1, success_rate := 1 }] from rfl,
      List.mem_singleton] at he
    subst he; norm_num
  · intro e he
    rw [show healthWitnessInput.pipelines = [{ runs := 1, success_rate := 1 }] from rfl,
      List.mem_singleton] at he
    subst he; norm_num
  · norm_num [healthWitnessInput]
  · norm_num [healthWitnessInput]
  · intro e he _
    rw [show healthWitnessInput.pipelines = [{ runs := 1, success_rate := 1 }] from rfl,
      List.mem_singleton] at he
    subst he; rfl
  · exact ⟨{ runs := 1, success_rate := 1 }, by
      rw [show healthWitnessInput.pipelines = [{ runs := 1, success_rate := 1 }] from rfl];
        exact List.mem_singleton.mpr rfl, by norm_num⟩

private lemma pruneLoop_eq_filter (cutoff : PyDatetime) (state : DedupState) :
    pruneLoop cutoff state =
      (state.filter (retainEntry cutoff),
       (state.filter (fun e => !retainEntry cutoff e)).length) := by
  induction state with
  | nil => rfl
  | cons e rest ih =>
    obtain ⟨sig, ts⟩ := e
    simp only [pruneLoop, ih]
    have hre : retainEntry cutoff (sig, ts) =
        (match parse_timestamp_utc (some ts) with
         | none => true
         | some p => decide (toInstant cutoff ≤ toInstant p)) := rfl
    cases h : parse_timestamp_utc (some ts) with
    | none =>
      rw [h] at hre
      simp [List.filter_cons, hre]
    | some p =>
      rw [h] at hre
      by_cases hc : toInstant cutoff ≤ toInstant p
      · simp [List.filter_cons, hre, hc]
      · simp [List.filter_cons, hre, hc]

private lemma dictGet_mem_keys {m : DedupState} {k v : String}
    (h : dictGet m k = some v) : k ∈ m.map Prod.fst := by
  induction m with
  | nil => simp [dictGet] at h
  | cons e rest ih =>
    obtain ⟨k', v'⟩ := e
    by_cases hk : k' = k
    · subst hk; simp
    · simp only [dictGet, if_neg hk] at h
      simpa using Or.inr (ih h)

private lemma dictGet_filter_of_nodup {m : DedupState} {p : String × String → Bool}
    {k v : String} (hnd : (m.map Prod.fst).Nodup)
    (h : dictGet (m.filter p) k = some v) : dictGet m k = some v := by
  induction m with
  | nil => simp [dictGet] at h
  | cons e rest ih =>
    obtain ⟨k', v'⟩ := e
    simp only [List.map_cons, List.nodup_cons] at hnd
    by_cases hk : k' = k
    · subst hk
      by_cases hp : p (k', v')
      · rw [List.filter_cons_of_pos hp] at h
        simpa [dictGet] using h
      · rw [List.filter_cons_of_neg hp] at h
        exfalso
        have hmem : k' ∈ (rest.filter p).map Prod.fst := dictGet_mem_keys h
        have : k' ∈ rest.map Prod.fst := by
          obtain ⟨x, hx, rfl⟩ := List.mem_map.mp hmem
          exact List.mem_map.mpr ⟨x, List.mem_of_mem_filter hx, rfl⟩
        exact hnd.1 this
    · by_cases hp : p (k', v')
      · rw [List.filter_cons_of_pos hp] at h
        simp only [dictGet, if_neg hk] at h ⊢
        exact ih hnd.2 h
      · rw [List.filter_cons_of_neg hp] at h
        simp only [dictGet, if_neg hk]
        exact ih hnd.2 h

/-- C5: with TTL > 0 and cutoff `now - TTL`, pruning keeps exactly (and
verbatim, as a sublist filter) the entries whose timestamp fails to parse
or parses to a time at or after the cutoff, and counts the removed rest; an
entry is removed iff its timestamp parses strictly older than the cutoff;
with TTL = 0 nothing is ever removed. -/
theorem c5_ttl_pruning (state : DedupState) (ttl : ℤ) (now : PyDatetime) :
    (0 < ttl →
      prune_state_entries state ttl now =
        (state.filter (retainEntry (subSecondsDt now ttl)),
         (state.filter (fun e => !retainEntry (subSecondsDt now ttl) e)).length))
    ∧ (∀ e : String × String, retainEntry (subSecondsDt now ttl) e = false ↔
        ∃ p, parse_timestamp_utc (some e.2) = some p ∧
          toInstant p < toInstant (subSecondsDt now ttl))
    ∧ (ttl = 0 → prune_state_entries state ttl now = (state, 0)) := by
  refine ⟨?_, ?_, ?_⟩
  · intro hpos
    unfold prune_state_entries
    rw [if_neg (by omega), pruneLoop_eq_filter]
  · intro e
    unfold retainEntry
    cases h : parse_timestamp_utc (some e.2) with
    | none =>
      simp only [h]
      constructor
      · intro hfalse; exact absurd hfalse (by simp)
      · rintro ⟨p, hp, _⟩; exact absurd hp (by simp [h])
    | some p =>
      simp only [h]
      constructor
      · intro hfalse
        refine ⟨p, rfl, ?_⟩
        have := of_decide_eq_false hfalse
        omega
      · rintro ⟨q, hq, hlt⟩
        obtain rfl : p = q := by injection hq
        exact decide_eq_false (by omega)
  · intro h0
    unfold prune_state_entries
    rw [if_pos (by omega)]

/-- Witness for `c5_ttl_pruning`: a 7-day TTL at a concrete `now` keeps the
fresh and the unparsable entry verbatim and removes the expired one. -/
theorem c5_ttl_pruning_witness :
    prune_state_entries dedupDemoState 604800 nowJune2024 =
      ([("sigA", "2024-06-01T00:00:00Z"), ("sigC", "not-a-timestamp")], 1) := by
  rw [(c5_ttl_pruning dedupDemoState 604800 nowJune2024).1 (by omega)]
  decide

/-- C10: a stored last-emission value that does not parse as a timestamp is
treated as no prior record — with a positive cooldown the emission is still
allowed (the total model returns a value; nothing is raised). -/
theorem c10_unparsable_last_sent_allows_emission (last : String) (cooldown : ℤ)
    (now : PyDatetime) (hc : 0 < cooldown)
    (hbad : parse_timestamp_utc (some last) = none) :
    should_emit_signature (some last) cooldown now = true := by
  unfold should_emit_signature
  rw [if_neg (by omega), hbad]

/-- Witness for `c10_unparsable_last_sent_allows_emission`. -/
theorem c10_unparsable_last_sent_allows_emission_witness :
    should_emit_signature (some "corrupted-timestamp") 600 nowJune2024 = true :=
  c10_unparsable_last_sent_allows_emission "corrupted-timestamp" 600 nowJune2024
    (by omega) (by decide)

private lemma semus_eq (hash : String → String) (doc : StoredDoc) (line : String)
    (cooldown ttl : ℤ) (now : PyDatetime) :
    should_emit_and_update_state hash doc line cooldown ttl now =
      (if should_emit_signature
          (dictGet (prune_state_entries (load_alert_dedup_state doc) (max 0 ttl) now).1
            (build_alert_signature hash line)) (max 0 cooldown) now then
        ({ send := true
           signature := build_alert_signature hash line
           last_sent := dictGet
             (prune_state_entries (load_alert_dedup_state doc) (max 0 ttl) now).1
             (build_alert_signature hash line)
           cooldown_sec := max 0 cooldown
           ttl_sec := max 0 ttl
           pruned_count := (prune_state_entries (load_alert_dedup_state doc) (max 0 ttl) now).2
           sent_at := some (format_timestamp now) },
         save_alert_dedup_state
           (dictSet (prune_state_entries (load_alert_dedup_state doc) (max 0 ttl) now).1
             (build_alert_signature hash line) (format_timestamp now)))
      else
        ({ send := false
           signature := build_alert_signature hash line
           last_sent := dictGet
             (prune_state_entries (load_alert_dedup_state doc) (max 0 ttl) now).1
             (build_alert_signature hash line)
           cooldown_sec := max 0 cooldown
           ttl_sec := max 0 ttl
           pruned_count := (prune_state_entries (load_alert_dedup_state doc) (max 0 ttl) now).2
           sent_at := none },
         if 0 < (prune_state_entries (load_alert_dedup_state doc) (max 0 ttl) now).2
         then save_alert_dedup_state
           (prune_state_entries (load_alert_dedup_state doc) (max 0 ttl) now).1
         else doc)) := rfl

private lemma semus_fst_send (hash : String → String) (doc : StoredDoc) (line : String)
    (cooldown ttl : ℤ) (now : PyDatetime) :
    (should_emit_and_update_state hash doc line cooldown ttl now).1.send =
      should_emit_signature
        (dictGet (prune_state_entries (load_alert_dedup_state doc) (max 0 ttl) now).1
          (build_alert_signature hash line)) (max 0 cooldown) now := by
  rw [semus_eq]
  cases h : should_emit_signature
      (dictGet (prune_state_entries (load_alert_dedup_state doc) (max 0 ttl) now).1
        (build_alert_signature hash line)) (max 0 cooldown) now with
  | true => simp
  | false => simp

private lemma semus_fst_pruned (hash : String → String) (doc : StoredDoc) (line : String)
    (cooldown ttl : ℤ) (now : PyDatetime) :
    (should_emit_and_update_state hash doc line cooldown ttl now).1.pruned_count =
      (prune_state_entries (load_alert_dedup_state doc) (max 0 ttl) now).2 := by
  rw [semus_eq]
  cases h : should_emit_signature
      (dictGet (prune_state_entries (load_alert_dedup_state doc) (max 0 ttl) now).1
        (build_alert_signature hash line)) (max 0 cooldown) now with
  | true => simp
  | false => simp

private lemma semus_false_snd (hash : String → String) (doc : StoredDoc) (line : String)
    (cooldown ttl : ℤ) (now : PyDatetime)
    (hsend : should_emit_signature
      (dictGet (prune_state_entries (load_alert_dedup_state doc) (max 0 ttl) now).1
        (build_alert_signature hash line)) (max 0 cooldown) now = false) :
    (should_emit_and_update_state hash doc line cooldown ttl now).2 =
      (if 0 < (prune_state_entries (load_alert_dedup_state doc) (max 0 ttl) now).2
       then save_alert_dedup_state
         (prune_state_entries (load_alert_dedup_state doc) (max 0 ttl) now).1
       else doc) := by
  rw [semus_eq, if_neg (by rw [hsend]; simp)]

private lemma semus_true_snd (hash : String → String) (doc : StoredDoc) (line : String)
    (cooldown ttl : ℤ) (now : PyDatetime)
    (hsend : should_emit_signature
      (dictGet (prune_state_entries (load_alert_dedup_state doc) (max 0 ttl) now).1
        (build_alert_signature hash line)) (max 0 cooldown) now = true) :
    (should_emit_and_update_state hash doc line cooldown ttl now).2 =
      save_alert_dedup_state
        (dictSet (prune_state_entries (load_alert_dedup_state doc) (max 0 ttl) now).1
          (build_alert_signature hash line) (format_timestamp now)) := by
  rw [semus_eq, if_pos (by rw [hsend])]

private lemma should_emit_of_none {cooldown : ℤ} {now : PyDatetime} :
    should_emit_signature none cooldown now = true := by
  unfold should_emit_signature
  split
  · rfl
  · rfl

private lemma filter_eq_self_of_not_length {state : DedupState}
    {p : String × String → Bool}
    (h : (state.filter (fun e => !p e)).length = 0) :
    state.filter p = state := by
  rw [List.length_eq_zero] at h
  rw [List.filter_eq_self]
  intro a ha
  have := List.filter_eq_nil_iff.mp h a ha
  simpa using this

/-- C9: when `should_emit_and_update_state` returns `send = false`, the
signature's stored last-emission value is unchanged between the document
before and after the call; the document is rewritten only when TTL pruning
removed at least one entry; with a positive TTL the post-call state is
exactly the original minus its expired entries (all others verbatim), and
with TTL ≤ 0 the document is untouched. -/
theorem c9_send_false_frame (hash : String → String) (doc : StoredDoc) (line : String)
    (cooldown ttl : ℤ) (now : PyDatetime)
    (hnodup : ((load_alert_dedup_state doc).map Prod.fst).Nodup)
    (hfalse : (should_emit_and_update_state hash doc line cooldown ttl now).1.send = false) :
    (dictGet (load_alert_dedup_state
        (should_emit_and_update_state hash doc line cooldown ttl now).2)
        (build_alert_signature hash line) =
      dictGet (load_alert_dedup_state doc) (build_alert_signature hash line))
    ∧ ((should_emit_and_update_state hash doc line cooldown ttl now).1.pruned_count = 0 →
        (should_emit_and_update_state hash doc line cooldown ttl now).2 = doc)
    ∧ (0 < ttl →
        load_alert_dedup_state
            (should_emit_and_update_state hash doc line cooldown ttl now).2 =
          (load_alert_dedup_state doc).filter (retainEntry (subSecondsDt now ttl)))
    ∧ (ttl ≤ 0 →
        (should_emit_and_update_state hash doc line cooldown ttl now).2 = doc) := by
  have hsend : should_emit_signature
      (dictGet (prune_state_entries (load_alert_dedup_state doc) (max 0 ttl) now).1
        (build_alert_signature hash line)) (max 0 cooldown) now = false := by
    rw [← semus_fst_send]; exact hfalse
  have hdoc2 := semus_false_snd hash doc line cooldown ttl now hsend
  have hpc := semus_fst_pruned hash doc line cooldown ttl now
  obtain ⟨ts, hts⟩ : ∃ ts,
      dictGet (prune_state_entries (load_alert_dedup_state doc) (max 0 ttl) now).1
        (build_alert_signature hash line) = some ts := by
    cases hd : dictGet (prune_state_entries (load_alert_dedup_state doc) (max 0 ttl) now).1
        (build_alert_signature hash line) with
    | none => rw [hd, should_emit_of_none] at hsend; cases hsend
    | some ts => exact ⟨ts, rfl⟩
  by_cases httl : 0 < ttl
  · have hmax : max 0 ttl = ttl := max_eq_right (le_of_lt httl)
    have hprune : prune_state_entries (load_alert_dedup_state doc) (max 0 ttl) now =
        ((load_alert_dedup_state doc).filter (retainEntry (subSecondsDt now ttl)),
         ((load_alert_dedup_state doc).filter
           (fun e => !retainEntry (subSecondsDt now ttl) e)).length) := by
      rw [hmax]
      unfold prune_state_entries
      rw [if_neg (by omega), pruneLoop_eq_filter]
    by_cases hrem : 0 < (prune_state_entries (load_alert_dedup_state doc) (max 0 ttl) now).2
    · rw [hdoc2, if_pos hrem]
      refine ⟨?_, ?_, ?_, ?_⟩
      · have h1 : load_alert_dedup_state (save_alert_dedup_state
            (prune_state_entries (load_alert_dedup_state doc) (max 0 ttl) now).1) =
            (prune_state_entries (load_alert_dedup_state doc) (max 0 ttl) now).1 := rfl
        rw [h1, hts]
        rw [hprune] at hts
        exact (dictGet_filter_of_nodup hnodup hts).symm
      · intro h0; rw [hpc] at h0; rw [h0] at hrem; omega
      · intro _
        rw [hprune]
        rfl
      · intro h0; omega
    · rw [hdoc2, if_neg hrem]
      refine ⟨rfl, fun _ => rfl, ?_, fun _ => rfl⟩
      intro _
      rw [hprune] at hrem
      simp only [not_lt, Nat.le_zero] at hrem
      exact (filter_eq_self_of_not_length hrem).symm
  · have hprune : prune_state_entries (load_alert_dedup_state doc) (max 0 ttl) now =
        (load_alert_dedup_state doc, 0) := by
      rw [max_eq_left (by omega : ttl ≤ 0)]
      unfold prune_state_entries
      rw [if_pos (by omega)]
    have hrem : ¬ 0 < (prune_state_entries (load_alert_dedup_state doc) (max 0 ttl) now).2 := by
      rw [hprune]; omega
    rw [hdoc2, if_neg hrem]
    exact ⟨rfl, fun _ => rfl, fun hpos => absurd hpos httl, fun _ => rfl⟩

/-! ### Round trip: `_parse_timestamp ∘ _format_timestamp` -/

private lemma digitVal_digitChar {n : ℕ} (h : n < 10) :
    digitVal (Nat.digitChar n) = some n := by
  interval_cases n <;> decide

private lemma isDigit_digitChar {n : ℕ} (h : n < 10) :
    (Nat.digitChar n).isDigit = true := by
  interval_cases n <;> decide

private lemma not_ws_digitChar {n : ℕ} (h : n < 10) :
    (Nat.digitChar n).isWhitespace = false := by
  interval_cases n <;> decide

private lemma toNat_digitChar {n : ℕ} (h : n < 10) :
    (Nat.digitChar n).toNat - 48 = n := by
  interval_cases n <;> decide

private lemma parse2_digits {n : ℕ} (h : n < 100) :
    parse2 (Nat.digitChar (n / 10)) (Nat.digitChar (n % 10)) = some n := by
  unfold parse2
  rw [digitVal_digitChar (by omega), digitVal_digitChar (by omega)]
  show some (10 * (n / 10) + n % 10) = some n
  exact congrArg some (by omega)

private lemma parse4_digits {n : ℕ} (h : n < 10000) :
    parse4 (Nat.digitChar (n / 1000)) (Nat.digitChar (n / 100 % 10))
      (Nat.digitChar (n / 10 % 10)) (Nat.digitChar (n % 10)) = some n := by
  unfold parse4
  rw [digitVal_digitChar (by omega), digitVal_digitChar (by omega),
    digitVal_digitChar (by omega), digitVal_digitChar (by omega)]
  show some (1000 * (n / 1000) + 100 * (n / 100 % 10) + 10 * (n / 10 % 10) + n % 10) = some n
  exact congrArg some (by omega)

private lemma takeWhile_digits_plus (ds rest : List Char)
    (hds : ∀ c ∈ ds, c.isDigit = true) :
    (ds ++ '+' :: rest).takeWhile (fun c => c.isDigit) = ds ∧
    (ds ++ '+' :: rest).dropWhile (fun c => c.isDigit) = '+' :: rest := by
  induction ds with
  | nil => simp [List.takeWhile_cons, List.dropWhile_cons]
  | cons c cs ih =>
    have hc : c.isDigit = true := hds c (by simp)
    have ih' := ih (fun x hx => hds x (by simp [hx]))
    simp only [List.cons_append, List.takeWhile_cons, List.dropWhile_cons, hc]
    simp [ih'.1, ih'.2]

private lemma sixDigitChars_all_digits {n : ℕ} (h : n ≤ 999999) :
    ∀ c ∈ sixDigitChars n, c.isDigit = true := by
  intro c hc
  simp only [sixDigitChars, List.mem_cons, List.not_mem_nil, or_false] at hc
  rcases hc with rfl | rfl | rfl | rfl | rfl | rfl <;>
    exact isDigit_digitChar (by omega)

private lemma padToMicro_sixDigitChars {n : ℕ} (h : n ≤ 999999) :
    padToMicro (sixDigitChars n) = n := by
  unfold padToMicro sixDigitChars
  simp only [List.foldl_cons, List.foldl_nil, List.length_cons, List.length_nil]
  rw [toNat_digitChar (by omega), toNat_digitChar (by omega), toNat_digitChar (by omega),
    toNat_digitChar (by omega), toNat_digitChar (by omega), toNat_digitChar (by omega)]
  norm_num
  omega


private lemma daysInMonth_le31 (y m : ℕ) : daysInMonth y m ≤ 31 := by
  unfold daysInMonth
  split <;> first | omega | (split <;> omega)

private lemma trimChars_eq_self {cs : List Char}
    (h1 : ∀ c, cs.head? = some c → c.isWhitespace = false)
    (h2 : ∀ c, cs.getLast? = some c → c.isWhitespace = false) :
    trimChars cs = cs := by
  unfold trimChars
  cases cs with
  | nil => rfl
  | cons a l =>
    rw [List.dropWhile_cons, if_neg (by simp [h1 a rfl])]
    have hne : (a :: l).reverse ≠ [] := by simp
    obtain ⟨b, r, hb⟩ := List.exists_cons_of_ne_nil hne
    have hlast : (a :: l).getLast? = some b := by
      rw [List.getLast?_eq_head?_reverse, hb]
      rfl
    rw [hb, List.dropWhile_cons, if_neg (by simp [h2 b hlast])]
    rw [← hb, List.reverse_reverse]

private lemma pyParseRaw_format (t : PyDatetime) (h : t.Valid) :
    pyParseTimestampRaw (some (format_timestamp t)) = some (t, some 0) := by
  obtain ⟨y, mo, d, hh, mi, se, us⟩ := t
  obtain ⟨hy1, hy2, hm1, hm2, hd1, hd2, hh1, hmi1, hse1, hus1⟩ := h
  dsimp only at hy1 hy2 hm1 hm2 hd1 hd2 hh1 hmi1 hse1 hus1
  have hdata : (format_timestamp ⟨y, mo, d, hh, mi, se, us⟩).data =
      formatBodyChars ⟨y, mo, d, hh, mi, se, us⟩ ++ ['Z'] := rfl
  have hhead : ∀ c, (formatBodyChars ⟨y, mo, d, hh, mi, se, us⟩ ++ ['Z']).head? = some c →
      c.isWhitespace = false := by
    intro c hc
    simp only [formatBodyChars, fourDigitChars, List.cons_append, List.head?_cons] at hc
    obtain rfl : Nat.digitChar (y / 1000) = c := by injection hc
    exact not_ws_digitChar (by omega)
  have hlastz : ∀ c, (formatBodyChars ⟨y, mo, d, hh, mi, se, us⟩ ++ ['Z']).getLast? = some c →
      c.isWhitespace = false := by
    intro c hc
    rw [List.getLast?_concat] at hc
    obtain rfl : 'Z' = c := by injection hc
    decide
  simp only [pyParseTimestampRaw]
  rw [hdata]
  rw [trimChars_eq_self hhead hlastz]
  rw [if_neg (by simp [formatBodyChars, fourDigitChars])]
  rw [if_pos (by rw [List.getLast?_concat])]
  rw [List.dropLast_concat]
  by_cases hus : us = 0
  · subst hus
    have hchain : formatBodyChars ⟨y, mo, d, hh, mi, se, 0⟩ ++ ['+','0','0',':','0','0'] =
        Nat.digitChar (y/1000) :: Nat.digitChar (y/100 % 10) :: Nat.digitChar (y/10 % 10) ::
        Nat.digitChar (y % 10) ::
        '-' :: Nat.digitChar (mo/10) :: Nat.digitChar (mo % 10) ::
        '-' :: Nat.digitChar (d/10) :: Nat.digitChar (d % 10) ::
        'T' :: Nat.digitChar (hh/10) :: Nat.digitChar (hh % 10) ::
        ':' :: Nat.digitChar (mi/10) :: Nat.digitChar (mi % 10) ::
        ':' :: Nat.digitChar (se/10) :: Nat.digitChar (se % 10) ::
        ['+','0','0',':','0','0'] := by
      simp [formatBodyChars, fourDigitChars, twoDigitChars]
    rw [hchain]
    simp only [parseIsoChars]
    rw [parse4_digits (by omega), parse2_digits (by omega : mo < 100),
      parse2_digits (by have := daysInMonth_le31 y mo; omega : d < 100)]
    have hpt : parseTime [(hh / 10).digitChar, (hh % 10).digitChar, ':',
        (mi / 10).digitChar, (mi % 10).digitChar, ':',
        (se / 10).digitChar, (se % 10).digitChar, '+', '0', '0', ':', '0', '0'] =
        some (hh, mi, se, 0, some 0) := by
      simp only [parseTime]
      rw [parse2_digits (by omega : hh < 100), parse2_digits (by omega : mi < 100),
        parse2_digits (by omega : se < 100)]
      rfl
    rw [hpt]
    show (if 1 ≤ y ∧ 1 ≤ mo ∧ mo ≤ 12 ∧ 1 ≤ d ∧ d ≤ daysInMonth y mo ∧
          hh ≤ 23 ∧ mi ≤ 59 ∧ se ≤ 59 then
        (pure ((⟨y, mo, d, hh, mi, se, 0⟩ : PyDatetime), some 0) : Option (PyDatetime × Option ℤ))
      else none) =
      some ((⟨y, mo, d, hh, mi, se, 0⟩ : PyDatetime), some 0)
    rw [if_pos ⟨hy1, hm1, hm2, hd1, hd2, hh1, hmi1, hse1⟩]
    rfl
  · have hchain : formatBodyChars ⟨y, mo, d, hh, mi, se, us⟩ ++ ['+','0','0',':','0','0'] =
        Nat.digitChar (y/1000) :: Nat.digitChar (y/100 % 10) :: Nat.digitChar (y/10 % 10) ::
        Nat.digitChar (y % 10) ::
        '-' :: Nat.digitChar (mo/10) :: Nat.digitChar (mo % 10) ::
        '-' :: Nat.digitChar (d/10) :: Nat.digitChar (d % 10) ::
        'T' :: Nat.digitChar (hh/10) :: Nat.digitChar (hh % 10) ::
        ':' :: Nat.digitChar (mi/10) :: Nat.digitChar (mi % 10) ::
        ':' :: Nat.digitChar (se/10) :: Nat.digitChar (se % 10) ::
        '.' :: (sixDigitChars us ++ ['+','0','0',':','0','0']) := by
      simp [formatBodyChars, fourDigitChars, twoDigitChars, hus]
    rw [hchain]
    simp only [parseIsoChars]
    rw [parse4_digits (by omega), parse2_digits (by omega : mo < 100),
      parse2_digits (by have := daysInMonth_le31 y mo; omega : d < 100)]
    have hpt : parseTime ((hh / 10).digitChar :: (hh % 10).digitChar :: ':' ::
        (mi / 10).digitChar :: (mi % 10).digitChar :: ':' ::
        (se / 10).digitChar :: (se % 10).digitChar :: '.' ::
        (sixDigitChars us ++ ['+','0','0',':','0','0'])) =
        some (hh, mi, se, us, some 0) := by
      simp only [parseTime]
      rw [parse2_digits (by omega : hh < 100), parse2_digits (by omega : mi < 100),
        parse2_digits (by omega : se < 100)]
      obtain ⟨htake, hdrop⟩ := takeWhile_digits_plus (sixDigitChars us) ['0','0',':','0','0']
        (sixDigitChars_all_digits hus1)
      rw [htake, hdrop, padToMicro_sixDigitChars hus1]
      rfl
    rw [hpt]
    show (if 1 ≤ y ∧ 1 ≤ mo ∧ mo ≤ 12 ∧ 1 ≤ d ∧ d ≤ daysInMonth y mo ∧
          hh ≤ 23 ∧ mi ≤ 59 ∧ se ≤ 59 then
        (pure ((⟨y, mo, d, hh, mi, se, us⟩ : PyDatetime), some 0) : Option (PyDatetime × Option ℤ))
      else none) =
      some ((⟨y, mo, d, hh, mi, se, us⟩ : PyDatetime), some 0)
    rw [if_pos ⟨hy1, hm1, hm2, hd1, hd2, hh1, hmi1, hse1⟩]
    rfl


private lemma parse_format_roundtrip (t : PyDatetime) (h : t.Valid) :
    parse_timestamp_utc (some (format_timestamp t)) = some t := by
  unfold parse_timestamp_utc
  rw [pyParseRaw_format t h]
  rfl

private lemma dictGet_dictSet_self (m : DedupState) (k v : String) :
    dictGet (dictSet m k v) k = some v := by
  induction m with
  | nil => simp [dictSet, dictGet]
  | cons e rest ih =>
    obtain ⟨ka, va⟩ := e
    by_cases hk : ka = k
    · subst hk
      simp [dictSet, dictGet]
    · simp only [dictSet, if_neg hk, dictGet]
      exact ih

private lemma prune_ttl_zero (state : DedupState) (now : PyDatetime) :
    prune_state_entries state (max 0 (0:ℤ)) now = (state, 0) := by
  unfold prune_state_entries
  rw [if_pos (by omega)]


/-- C4: with a fixed line, positive cooldown `C` and TTL 0, `should_emit`
sends exactly when there is no prior parsed record or `now - last ≥ C`; a
first call at `t0` sends, stamps the signature with `t0` and persists the
state before returning; a later call with elapsed time in `[0, C)` does not
send; a call with elapsed time `≥ C` sends again and stamps that time. -/
theorem c4_cooldown_monotonicity (hash : String → String) (line : String) (C : ℤ)
    (doc : StoredDoc) (t0 t1 t2 : PyDatetime)
    (hC : 0 < C) (h0 : t0.Valid)
    (hfresh : dictGet (load_alert_dedup_state doc)
      (build_alert_signature hash line) = none)
    (_hd1 : 0 ≤ elapsedSeconds t1 t0) (hd2 : elapsedSeconds t1 t0 < (C : ℚ))
    (hd3 : (C : ℚ) ≤ elapsedSeconds t2 t0) :
    (∀ (lastSent : Option String) (now : PyDatetime),
      should_emit_signature lastSent C now = true ↔
        (parse_timestamp_utc lastSent = none ∨
          ∃ tl, parse_timestamp_utc lastSent = some tl ∧
            (C : ℚ) ≤ elapsedSeconds now tl))
    ∧ ((should_emit_and_update_state hash doc line C 0 t0).1.send = true)
    ∧ ((should_emit_and_update_state hash doc line C 0 t0).2 =
        save_alert_dedup_state (dictSet (load_alert_dedup_state doc)
          (build_alert_signature hash line) (format_timestamp t0)))
    ∧ ((should_emit_and_update_state hash
          (should_emit_and_update_state hash doc line C 0 t0).2 line C 0 t1).1.send = false)
    ∧ ((should_emit_and_update_state hash
          (should_emit_and_update_state hash doc line C 0 t0).2 line C 0 t2).1.send = true)
    ∧ ((should_emit_and_update_state hash
          (should_emit_and_update_state hash doc line C 0 t0).2 line C 0 t2).2 =
        save_alert_dedup_state (dictSet
          (load_alert_dedup_state (should_emit_and_update_state hash doc line C 0 t0).2)
          (build_alert_signature hash line) (format_timestamp t2))) := by
  have hmaxC : max 0 C = C := max_eq_right hC.le
  have hiff : ∀ (lastSent : Option String) (now : PyDatetime),
      should_emit_signature lastSent C now = true ↔
        (parse_timestamp_utc lastSent = none ∨
          ∃ tl, parse_timestamp_utc lastSent = some tl ∧
            (C : ℚ) ≤ elapsedSeconds now tl) := by
    intro lastSent now
    unfold should_emit_signature
    rw [if_neg (by omega)]
    cases hp : parse_timestamp_utc lastSent with
    | none => simp
    | some tl =>
      simp only [decide_eq_true_eq]
      constructor
      · intro hle
        exact Or.inr ⟨tl, rfl, hle⟩
      · rintro (hnone | ⟨tl2, htl2, hle⟩)
        · cases hnone
        · obtain rfl : tl = tl2 := by injection htl2
          exact hle
  -- first call: fresh signature, TTL 0 keeps the state as loaded
  have hsend0 : should_emit_signature
      (dictGet (prune_state_entries (load_alert_dedup_state doc) (max 0 (0:ℤ)) t0).1
        (build_alert_signature hash line)) (max 0 C) t0 = true := by
    rw [prune_ttl_zero, hfresh]
    exact should_emit_of_none
  have hsendA : (should_emit_and_update_state hash doc line C 0 t0).1.send = true := by
    rw [semus_fst_send]
    exact hsend0
  have hdocA : (should_emit_and_update_state hash doc line C 0 t0).2 =
      save_alert_dedup_state (dictSet (load_alert_dedup_state doc)
        (build_alert_signature hash line) (format_timestamp t0)) := by
    rw [semus_true_snd hash doc line C 0 t0 hsend0, prune_ttl_zero]
  -- after the first call the signature is stamped with t0
  have hstamp : dictGet (load_alert_dedup_state
      (should_emit_and_update_state hash doc line C 0 t0).2)
      (build_alert_signature hash line) = some (format_timestamp t0) := by
    rw [hdocA]
    exact dictGet_dictSet_self _ _ _
  have hsend1 : should_emit_signature
      (dictGet (prune_state_entries (load_alert_dedup_state
          (should_emit_and_update_state hash doc line C 0 t0).2) (max 0 (0:ℤ)) t1).1
        (build_alert_signature hash line)) (max 0 C) t1 = false := by
    rw [prune_ttl_zero, hstamp, hmaxC]
    unfold should_emit_signature
    rw [if_neg (by omega), parse_format_roundtrip t0 h0]
    exact decide_eq_false (not_le.mpr hd2)
  have hsend2 : should_emit_signature
      (dictGet (prune_state_entries (load_alert_dedup_state
          (should_emit_and_update_state hash doc line C 0 t0).2) (max 0 (0:ℤ)) t2).1
        (build_alert_signature hash line)) (max 0 C) t2 = true := by
    rw [prune_ttl_zero, hstamp, hmaxC]
    unfold should_emit_signature
    rw [if_neg (by omega), parse_format_roundtrip t0 h0]
    exact decide_eq_true hd3
  refine ⟨hiff, hsendA, hdocA, ?_, ?_, ?_⟩
  · rw [semus_fst_send]
    exact hsend1
  · rw [semus_fst_send]
    exact hsend2
  · rw [semus_true_snd hash _ line C 0 t2 hsend2, prune_ttl_zero]


/-- Witness for `c4_cooldown_monotonicity` at a concrete line, document and
times (Δ = 300 s < C = 600 s < 3600 s). -/
theorem c4_cooldown_monotonicity_witness :
    ((should_emit_and_update_state (fun s => s) StoredDoc.missing
        "[ts] ERROR db down" 600 0 nowJune2024).1.send = true)
    ∧ ((should_emit_and_update_state (fun s => s)
        (should_emit_and_update_state (fun s => s) StoredDoc.missing
          "[ts] ERROR db down" 600 0 nowJune2024).2
        "[ts] ERROR db down" 600 0 ⟨2024, 6, 5, 12, 5, 0, 0⟩).1.send = false)
    ∧ ((should_emit_and_update_state (fun s => s)
        (should_emit_and_update_state (fun s => s) StoredDoc.missing
          "[ts] ERROR db down" 600 0 nowJune2024).2
        "[ts] ERROR db down" 600 0 ⟨2024, 6, 5, 13, 0, 0, 0⟩).1.send = true) := by
  have h := c4_cooldown_monotonicity (fun s => s) "[ts] ERROR db down" 600
    StoredDoc.missing nowJune2024 ⟨2024, 6, 5, 12, 5, 0, 0⟩ ⟨2024, 6, 5, 13, 0, 0, 0⟩
    (by omega) (by decide) rfl
    (by
      have hi : toInstant ⟨2024, 6, 5, 12, 5, 0, 0⟩ - toInstant nowJune2024 = 300000000 := by
        decide
      unfold elapsedSeconds
      rw [hi]
      norm_num)
    (by
      have hi : toInstant ⟨2024, 6, 5, 12, 5, 0, 0⟩ - toInstant nowJune2024 = 300000000 := by
        decide
      unfold elapsedSeconds
      rw [hi]
      norm_num)
    (by
      have hi : toInstant ⟨2024, 6, 5, 13, 0, 0, 0⟩ - toInstant nowJune2024 = 3600000000 := by
        decide
      unfold elapsedSeconds
      rw [hi]
      norm_num)
  exact ⟨h.2.1, h.2.2.2.1, h.2.2.2.2.1⟩



private lemma prune_removed_zero_fst {state : DedupState} {ttl : ℤ} {now : PyDatetime}
    (h : (prune_state_entries state ttl now).2 = 0) :
    (prune_state_entries state ttl now).1 = state := by
  unfold prune_state_entries at h ⊢
  by_cases ht : ttl ≤ 0
  · rw [if_pos ht]
  · rw [if_neg ht] at h ⊢
    rw [pruneLoop_eq_filter] at h ⊢
    simp only at h ⊢
    exact filter_eq_self_of_not_length h

/-- Witness for `c9_send_false_frame`: a suppressed duplicate 300 s after
the stored emission leaves the stored entry untouched. -/
theorem c9_send_false_frame_witness :
    dictGet (load_alert_dedup_state
        (should_emit_and_update_state (fun _ => "SIG")
          (StoredDoc.stored [("SIG", "2024-06-05T11:55:00Z")]) "x" 600 0 nowJune2024).2)
      (build_alert_signature (fun _ => "SIG") "x") =
      dictGet (load_alert_dedup_state (StoredDoc.stored [("SIG", "2024-06-05T11:55:00Z")]))
        (build_alert_signature (fun _ => "SIG") "x") := by
  have hfalse : (should_emit_and_update_state (fun _ => "SIG")
      (StoredDoc.stored [("SIG", "2024-06-05T11:55:00Z")])
      "x" 600 0 nowJune2024).1.send = false := by
    rw [semus_fst_send, prune_ttl_zero]
    rw [show dictGet (load_alert_dedup_state
        (StoredDoc.stored [("SIG", "2024-06-05T11:55:00Z")]))
        (build_alert_signature (fun _ => "SIG") "x") =
        some "2024-06-05T11:55:00Z" from by decide]
    unfold should_emit_signature
    rw [if_neg (by omega)]
    rw [show parse_timestamp_utc (some "2024-06-05T11:55:00Z") =
        some ⟨2024, 6, 5, 11, 55, 0, 0⟩ from by decide]
    apply decide_eq_false
    have hi : toInstant nowJune2024 - toInstant ⟨2024, 6, 5, 11, 55, 0, 0⟩ = 300000000 := by
      decide
    have hm : (max 0 600 : ℤ) = 600 := by omega
    unfold elapsedSeconds
    rw [hi, hm]
    norm_num
  exact (c9_send_false_frame (fun _ => "SIG")
    (StoredDoc.stored [("SIG", "2024-06-05T11:55:00Z")]) "x" 600 0 nowJune2024
    (by decide) hfalse).1

/-- C2 counterexample: resetting with `backup=true` a document whose only
entry is expired under the (prune-first) 7-day TTL produces a backup of the
already-pruned file; it loads back to the empty mapping, not to the mapping
persisted before the reset call. -/
theorem c2_backup_is_post_prune_counterexample :
    (reset_alert_dedup_state (StoredDoc.stored [("sig", "2020-01-01T00:00:00Z")])
        true 604800 nowJune2024).backupDoc = some (save_alert_dedup_state []) ∧
    load_alert_dedup_state (save_alert_dedup_state []) ≠
      [("sig", "2020-01-01T00:00:00Z")] := by
  exact ⟨by decide, by decide⟩

/-- C2 (amended): `summarize` immediately after any reset reports 0 entries;
with `backup=true` on an existing document the backup equals the document
as it stands after the TTL prune that `reset` performs first, so it
round-trips to the pruned prior state — and to the exact prior state
whenever that prune removed no entry. -/
theorem c2_reset_backup_roundtrip (doc : StoredDoc) (ttl : ℤ) (now : PyDatetime)
    (ttl2 : ℤ) (now2 : PyDatetime) :
    (∀ backup : Bool, summarize_entry_count
        ((reset_alert_dedup_state doc backup ttl now).finalDoc) ttl2 now2 = 0)
    ∧ ((load_state_with_prune doc ttl now).2.2.2 ≠ .missing →
        (reset_alert_dedup_state doc true ttl now).backupDoc =
          some (load_state_with_prune doc ttl now).2.2.2 ∧
        load_alert_dedup_state ((load_state_with_prune doc ttl now).2.2.2) =
          (prune_state_entries (load_alert_dedup_state doc) ttl now).1)
    ∧ ((prune_state_entries (load_alert_dedup_state doc) ttl now).2 = 0 →
        doc ≠ .missing →
        (reset_alert_dedup_state doc true ttl now).backupDoc = some doc) := by
  have hafter : (load_state_with_prune doc ttl now).2.2.2 =
      (if 0 < (prune_state_entries (load_alert_dedup_state doc) ttl now).2
       then save_alert_dedup_state
         (prune_state_entries (load_alert_dedup_state doc) ttl now).1
       else doc) := rfl
  refine ⟨?_, ?_, ?_⟩
  · intro backup
    have hfd : (reset_alert_dedup_state doc backup ttl now).finalDoc =
        save_alert_dedup_state [] := rfl
    rw [hfd]
    by_cases h : ttl2 ≤ 0 <;>
      simp [summarize_entry_count, load_state_with_prune, prune_state_entries,
        load_alert_dedup_state, save_alert_dedup_state, pruneLoop, h]
  · intro hne
    have hb : (reset_alert_dedup_state doc true ttl now).backupDoc =
        (if (match (load_state_with_prune doc ttl now).2.2.2 with
             | StoredDoc.missing => false
             | _ => true) && true then
          some (load_state_with_prune doc ttl now).2.2.2 else none) := rfl
    constructor
    · rw [hb]
      cases hd : (load_state_with_prune doc ttl now).2.2.2 with
      | missing => exact absurd hd hne
      | corrupt => simp
      | stored m => simp
    · rw [hafter]
      by_cases hrem : 0 < (prune_state_entries (load_alert_dedup_state doc) ttl now).2
      · rw [if_pos hrem]
        rfl
      · rw [if_neg hrem]
        exact (prune_removed_zero_fst (by omega)).symm
  · intro hzero hne
    have hb : (reset_alert_dedup_state doc true ttl now).backupDoc =
        (if (match (load_state_with_prune doc ttl now).2.2.2 with
             | StoredDoc.missing => false
             | _ => true) && true then
          some (load_state_with_prune doc ttl now).2.2.2 else none) := rfl
    have hdoc : (load_state_with_prune doc ttl now).2.2.2 = doc := by
      rw [hafter, if_neg (by omega)]
    rw [hb, hdoc]
    cases doc with
    | missing => exact absurd rfl hne
    | corrupt => simp
    | stored m => simp



/-- Witness for `c2_reset_backup_roundtrip` at a concrete document whose
single entry is within the TTL, so the prune removes nothing and the backup
is the exact prior document. -/
theorem c2_reset_backup_roundtrip_witness :
    summarize_entry_count
      ((reset_alert_dedup_state (StoredDoc.stored [("sigA", "2024-06-01T00:00:00Z")])
        true 604800 nowJune2024).finalDoc) 604800 nowJune2024 = 0 ∧
    (reset_alert_dedup_state (StoredDoc.stored [("sigA", "2024-06-01T00:00:00Z")])
        true 604800 nowJune2024).backupDoc =
      some (StoredDoc.stored [("sigA", "2024-06-01T00:00:00Z")]) := by
  have h := c2_reset_backup_roundtrip
    (StoredDoc.stored [("sigA", "2024-06-01T00:00:00Z")]) 604800 nowJune2024
    604800 nowJune2024
  exact ⟨h.1 true, h.2.2 (by decide) (by decide)⟩


/-! ### Signature normalization (C8) -/

private lemma lc_ws (c : Char) : (lowerChar c).isWhitespace = c.isWhitespace := by
  unfold lowerChar
  split <;> simp_all

private lemma lc_lbracket (c : Char) : (lowerChar c = '[') ↔ (c = '[') := by
  unfold lowerChar
  split <;> simp_all

private lemma lc_rbracket (c : Char) : (lowerChar c = ']') ↔ (c = ']') := by
  unfold lowerChar
  split <;> simp_all

private lemma lc_output (c : Char) : lowerChar c = c ∨
    lowerChar c ∈ (['a','b','c','d','e','f','g','h','i','j','k','l','m',
      'n','o','p','q','r','s','t','u','v','w','x','y','z'] : List Char) := by
  unfold lowerChar
  split <;> simp

private lemma lc_idem (c : Char) : lowerChar (lowerChar c) = lowerChar c := by
  rcases lc_output c with h | h
  · rw [h, h]
  · generalize lowerChar c = d at h ⊢
    fin_cases h <;> decide

private lemma dropWhile_ws_map_lower (l : List Char) :
    (l.map lowerChar).dropWhile Char.isWhitespace =
      (l.dropWhile Char.isWhitespace).map lowerChar := by
  induction l with
  | nil => rfl
  | cons c l ih =>
    simp only [List.map_cons, List.dropWhile_cons, lc_ws]
    by_cases h : c.isWhitespace
    · simp [h, ih]
    · simp [h]

private lemma trim_map_lower (l : List Char) :
    trimChars (l.map lowerChar) = (trimChars l).map lowerChar := by
  unfold trimChars
  rw [dropWhile_ws_map_lower, ← List.map_reverse, dropWhile_ws_map_lower,
    ← List.map_reverse]

private lemma collapse_aux_map_lower (l : List Char) (b : Bool) :
    collapseWSAux (l.map lowerChar) b = (collapseWSAux l b).map lowerChar := by
  induction l generalizing b with
  | nil => rfl
  | cons c l ih =>
    simp only [List.map_cons, collapseWSAux, lc_ws]
    by_cases h : c.isWhitespace
    · cases b <;> simp [h, ih, show lowerChar ' ' = ' ' from rfl]
    · simp [h, ih]

private lemma split_map_lower (l : List Char) :
    splitAtRBracket (l.map lowerChar) =
      (splitAtRBracket l).map (fun p => (p.1.map lowerChar, p.2.map lowerChar)) := by
  induction l with
  | nil => rfl
  | cons c l ih =>
    simp only [List.map_cons, splitAtRBracket]
    by_cases h : c = ']'
    · rw [if_pos ((lc_rbracket c).mpr h), if_pos h]
      rfl
    · rw [if_neg (fun hc => h ((lc_rbracket c).mp hc)), if_neg h, ih]
      cases splitAtRBracket l <;> rfl

private lemma strip_map_lower (l : List Char) :
    stripTimestampPrefix (l.map lowerChar) =
      (stripTimestampPrefix l).map lowerChar := by
  cases l with
  | nil => rfl
  | cons c rest =>
    simp only [List.map_cons, stripTimestampPrefix]
    by_cases h : c = '['
    · rw [if_pos ((lc_lbracket c).mpr h), if_pos h, split_map_lower]
      cases hs : splitAtRBracket rest with
      | none => rfl
      | some p =>
        obtain ⟨before, after⟩ := p
        simp only [Option.map]
        by_cases hb : before.isEmpty
        · rw [if_pos (show (before.map lowerChar).isEmpty = true by simpa using hb),
            if_pos hb]
          rfl
        · rw [if_neg (show ¬(before.map lowerChar).isEmpty = true by simpa using hb),
            if_neg hb, dropWhile_ws_map_lower]
    · rw [if_neg (fun hc => h ((lc_lbracket c).mp hc)), if_neg h]
      rfl

private lemma norm_map_lower (cs : List Char) :
    normalizeChars (cs.map lowerChar) = normalizeChars cs := by
  unfold normalizeChars collapseWS
  rw [trim_map_lower, strip_map_lower, collapse_aux_map_lower, trim_map_lower,
    List.map_map]
  exact List.map_congr_left (fun a _ => lc_idem a)


private lemma collapse_aux_idem (x : List Char) :
    collapseWSAux (collapseWSAux x false) false = collapseWSAux x false ∧
    collapseWSAux (collapseWSAux x true) true = collapseWSAux x true := by
  induction x with
  | nil => exact ⟨rfl, rfl⟩
  | cons c x ih =>
    by_cases h : c.isWhitespace <;>
      constructor <;>
      simp [collapseWSAux, h, ih.1, ih.2]

private lemma dropWhile_ws_collapse_aux (y : List Char) :
    (collapseWSAux y false).dropWhile Char.isWhitespace =
      collapseWSAux (y.dropWhile Char.isWhitespace) false ∧
    (collapseWSAux y true).dropWhile Char.isWhitespace =
      collapseWSAux (y.dropWhile Char.isWhitespace) false := by
  induction y with
  | nil => exact ⟨rfl, rfl⟩
  | cons c y ih =>
    by_cases h : c.isWhitespace <;>
      constructor <;>
      simp [collapseWSAux, h, ih.1, ih.2, List.dropWhile_cons]

private lemma collapse_aux_empty_iff (x : List Char) :
    collapseWSAux x false = [] ↔ x = [] := by
  cases x with
  | nil => simp [collapseWSAux]
  | cons c x =>
    simp only [collapseWSAux]
    by_cases h : c.isWhitespace <;> simp [h]

private lemma split_collapse_none {r : List Char} (h : splitAtRBracket r = none) :
    ∀ b, splitAtRBracket (collapseWSAux r b) = none := by
  induction r with
  | nil => intro b; rfl
  | cons c r ih =>
    intro b
    simp only [splitAtRBracket] at h
    by_cases hc : c = ']'
    · rw [if_pos hc] at h
      cases h
    · rw [if_neg hc] at h
      have hr : splitAtRBracket r = none := by
        cases hs : splitAtRBracket r
        · rfl
        · rw [hs] at h; cases h
      by_cases hw : c.isWhitespace <;>
        cases b <;>
        simp [collapseWSAux, hw, splitAtRBracket, hc, ih hr]

private lemma split_collapse_some {r bef aft : List Char}
    (h : splitAtRBracket r = some (bef, aft)) :
    ∀ b, splitAtRBracket (collapseWSAux r b) =
      some (collapseWSAux bef b, collapseWSAux aft false) := by
  induction r generalizing bef with
  | nil => intro b; cases h
  | cons c r ih =>
    intro b
    simp only [splitAtRBracket] at h
    by_cases hc : c = ']'
    · rw [if_pos hc] at h
      have hb : bef = [] ∧ aft = r := by
        injection h with h2
        exact ⟨(congrArg Prod.fst h2).symm, (congrArg Prod.snd h2).symm⟩
      obtain ⟨rfl, rfl⟩ := hb
      subst hc
      cases b <;>
        simp [collapseWSAux, splitAtRBracket]
    · rw [if_neg hc] at h
      cases hs : splitAtRBracket r with
      | none => rw [hs] at h; cases h
      | some p =>
        obtain ⟨bef2, aft2⟩ := p
        rw [hs] at h
        simp only [Option.map] at h
        have hb : bef = c :: bef2 ∧ aft = aft2 := by
          injection h with h2
          exact ⟨(congrArg Prod.fst h2).symm, (congrArg Prod.snd h2).symm⟩
        obtain ⟨rfl, rfl⟩ := hb
        by_cases hw : c.isWhitespace <;>
          cases b <;>
          simp [collapseWSAux, hw, splitAtRBracket, hc, ih hs]


private lemma collapse_idem (x : List Char) :
    collapseWS (collapseWS x) = collapseWS x :=
  (collapse_aux_idem x).1

private lemma strip_collapse (t : List Char) :
    trimChars (collapseWS (stripTimestampPrefix (collapseWS t))) =
      trimChars (collapseWS (stripTimestampPrefix t)) := by
  cases t with
  | nil => rfl
  | cons c r =>
    by_cases hw : c.isWhitespace
    · have hc : ¬ c = '[' := by
        intro e
        rw [e] at hw
        exact absurd hw (by decide)
      have hC : collapseWS (c :: r) = ' ' :: collapseWSAux r true := by
        simp [collapseWS, collapseWSAux, hw]
      have hS : stripTimestampPrefix (c :: r) = c :: r := by
        simp [stripTimestampPrefix, hc]
      have hS2 : stripTimestampPrefix (' ' :: collapseWSAux r true) =
          ' ' :: collapseWSAux r true := by
        simp [stripTimestampPrefix]
      rw [hC, hS2, ← hC, collapse_idem, hS]
    · by_cases hbr : c = '['
      · subst hbr
        have hC : collapseWS ('[' :: r) = '[' :: collapseWSAux r false := by
          simp [collapseWS, collapseWSAux]
        cases hs : splitAtRBracket r with
        | none =>
          have hS : stripTimestampPrefix ('[' :: r) = '[' :: r := by
            simp [stripTimestampPrefix, hs]
          have hS2 : stripTimestampPrefix ('[' :: collapseWSAux r false) =
              '[' :: collapseWSAux r false := by
            simp [stripTimestampPrefix, split_collapse_none hs false]
          rw [hC, hS2, ← hC, collapse_idem, hS]
        | some p =>
          obtain ⟨bef, aft⟩ := p
          by_cases hb : bef.isEmpty
          · have hb2 : (collapseWSAux bef false).isEmpty = true := by
              rw [List.isEmpty_iff] at hb ⊢
              rw [hb]
              rfl
            have hS : stripTimestampPrefix ('[' :: r) = '[' :: r := by
              simp [stripTimestampPrefix, hs, hb]
            have hS2 : stripTimestampPrefix ('[' :: collapseWSAux r false) =
                '[' :: collapseWSAux r false := by
              simp [stripTimestampPrefix, split_collapse_some hs false, hb2]
            rw [hC, hS2, ← hC, collapse_idem, hS]
          · have hb2 : ¬ (collapseWSAux bef false).isEmpty = true := by
              rw [List.isEmpty_iff] at hb ⊢
              rw [collapse_aux_empty_iff]
              exact hb
            have hS : stripTimestampPrefix ('[' :: r) =
                aft.dropWhile Char.isWhitespace := by
              simp [stripTimestampPrefix, hs, hb]
            have hS2 : stripTimestampPrefix ('[' :: collapseWSAux r false) =
                (collapseWSAux aft false).dropWhile Char.isWhitespace := by
              simp [stripTimestampPrefix, split_collapse_some hs false, hb2]
            rw [hC, hS2, hS, (dropWhile_ws_collapse_aux aft).1]
            have h2 : collapseWS (collapseWSAux
                (aft.dropWhile Char.isWhitespace) false) =
                collapseWSAux (aft.dropWhile Char.isWhitespace) false :=
              collapse_idem (aft.dropWhile Char.isWhitespace)
            rw [h2]
            rfl
      · have hC : collapseWS (c :: r) = c :: collapseWSAux r false := by
          simp [collapseWS, collapseWSAux, hw]
        have hS : stripTimestampPrefix (c :: r) = c :: r := by
          simp [stripTimestampPrefix, hbr]
        have hS2 : stripTimestampPrefix (c :: collapseWSAux r false) =
            c :: collapseWSAux r false := by
          simp [stripTimestampPrefix, hbr]
        rw [hC, hS2, ← hC, collapse_idem, hS]

private lemma norm_canon (cs : List Char) :
    normalizeChars cs =
      (trimChars (collapseWS (stripTimestampPrefix
        (collapseWS (trimChars cs))))).map lowerChar := by
  unfold normalizeChars
  rw [strip_collapse (trimChars cs)]

private lemma dropWhile_append_of_ne {p : Char → Bool} {b : Char}
    (hb : p b = false) (u v : List Char) :
    (u ++ b :: v).dropWhile p = u.dropWhile p ++ b :: v := by
  induction u with
  | nil => simp [List.dropWhile_cons, hb]
  | cons c u ih =>
    simp only [List.cons_append, List.dropWhile_cons]
    by_cases hc : p c
    · simp [hc, ih]
    · simp [hc]

private lemma splitAtRBracket_of_not_mem {A : List Char} (h : ']' ∉ A)
    (m : List Char) : splitAtRBracket (A ++ ']' :: m) = some (A, m) := by
  induction A with
  | nil => simp [splitAtRBracket]
  | cons c A ih =>
    have hc : ¬ c = ']' := fun e => h (by simp [e])
    have hA : ']' ∉ A := fun e => h (by simp [e])
    simp only [List.cons_append, splitAtRBracket, if_neg hc]
    show Option.map (fun p => (c :: p.1, p.2))
      (splitAtRBracket (A ++ ']' :: m)) = some (c :: A, m)
    rw [ih hA]
    rfl

private lemma trim_bracket (A m : List Char) :
    trimChars ('[' :: (A ++ ']' :: m)) =
      '[' :: (A ++ ']' :: (m.reverse.dropWhile Char.isWhitespace).reverse) := by
  unfold trimChars
  rw [List.dropWhile_cons, if_neg (by decide)]
  have h1 : ('[' :: (A ++ ']' :: m)).reverse =
      m.reverse ++ ']' :: (A.reverse ++ ['[']) := by
    simp [List.reverse_cons, List.reverse_append, List.append_assoc]
  rw [h1, dropWhile_append_of_ne (by decide)]
  simp [List.reverse_append, List.reverse_cons, List.append_assoc]

private lemma norm_bracket {A : List Char} (m : List Char) (hA : A ≠ [])
    (hAr : ']' ∉ A) :
    normalizeChars ('[' :: (A ++ ']' :: m)) =
      (trimChars (collapseWS
        (((m.reverse.dropWhile Char.isWhitespace).reverse).dropWhile
          Char.isWhitespace))).map lowerChar := by
  unfold normalizeChars
  rw [trim_bracket]
  have hstrip : stripTimestampPrefix
      ('[' :: (A ++ ']' :: (m.reverse.dropWhile Char.isWhitespace).reverse)) =
      ((m.reverse.dropWhile Char.isWhitespace).reverse).dropWhile
        Char.isWhitespace := by
    simp only [stripTimestampPrefix, if_pos rfl,
      splitAtRBracket_of_not_mem hAr]
    rw [if_neg (fun hemp => hA (List.isEmpty_iff.mp hemp))]
    simp
  rw [hstrip]


/-- C8: the alert signature is independent of the bracketed timestamp
prefix; more generally, two lines that agree after ASCII lower-casing, or
after trimming and collapsing whitespace runs, have the same signature
(stated for any hash applied to the normalized message, as the source
composes SHA-256 with `_normalize_alert_message`). -/
theorem c8_signature_stability (hash : String → String) :
    (∀ (A B m : List Char), A ≠ [] → ']' ∉ A → B ≠ [] → ']' ∉ B →
      build_alert_signature hash (String.mk ('[' :: (A ++ ']' :: m))) =
        build_alert_signature hash (String.mk ('[' :: (B ++ ']' :: m))))
    ∧ (∀ a b : String, a.data.map lowerChar = b.data.map lowerChar →
        build_alert_signature hash a = build_alert_signature hash b)
    ∧ (∀ a b : String,
        collapseWS (trimChars a.data) = collapseWS (trimChars b.data) →
        build_alert_signature hash a = build_alert_signature hash b) := by
  have hsig : ∀ s : String, build_alert_signature hash s =
      hash (String.mk (normalizeChars s.data)) := fun _ => rfl
  refine ⟨?_, ?_, ?_⟩
  · intro A B m hA hAr hB hBr
    rw [hsig, hsig]
    refine congrArg hash (congrArg String.mk ?_)
    show normalizeChars ('[' :: (A ++ ']' :: m)) =
      normalizeChars ('[' :: (B ++ ']' :: m))
    rw [norm_bracket m hA hAr, norm_bracket m hB hBr]
  · intro a b hab
    rw [hsig, hsig]
    refine congrArg hash (congrArg String.mk ?_)
    rw [← norm_map_lower a.data, ← norm_map_lower b.data, hab]
  · intro a b hab
    rw [hsig, hsig]
    refine congrArg hash (congrArg String.mk ?_)
    rw [norm_canon a.data, norm_canon b.data, hab]

/-- Witness for `c8_signature_stability`: two timestamps around the same
message, a case variant, and a whitespace variant. -/
theorem c8_signature_stability_witness :
    (build_alert_signature (fun s => s)
        (String.mk ('[' :: ("2024-06-05T12:00:00Z".data ++ ']' :: " ERROR db down".data))) =
      build_alert_signature (fun s => s)
        (String.mk ('[' :: ("2026-01-01T00:00:00Z".data ++ ']' :: " ERROR db down".data))))
    ∧ (build_alert_signature (fun s => s) "ERROR DB Down" =
        build_alert_signature (fun s => s) "error db down")
    ∧ (build_alert_signature (fun s => s) "  ERROR   db down " =
        build_alert_signature (fun s => s) "ERROR db down") := by
  have h := c8_signature_stability (fun s => s)
  exact ⟨h.1 _ _ _ (by decide) (by decide) (by decide) (by decide),
    h.2.1 _ _ (by decide), h.2.2 _ _ (by decide)⟩


/-! ### Scanner window (C1) -/

private lemma scanStep_included_runs (w : Option PyDatetime) (acc : ScanAcc)
    (d : RunPayload) :
    (scanStep w acc d).included_runs =
      acc.included_runs + (if includedInWindow w d then 1 else 0) := by
  unfold scanStep includedInWindow
  cases hn : normalizePipeline d.pipeline with
  | none => simp [hn]
  | some p =>
    cases hp : parse_timestamp_naive (some (resolvedTimestampText d)) with
    | none => simp [hn, hp]
    | some t =>
      cases w with
      | none =>
        simp only [hn, hp]
        cases p <;> simp [setStats, getStats]
      | some ws =>
        by_cases hlt : toInstant t < toInstant ws
        · simp [hn, hp, hlt, not_le.mpr hlt]
        · simp only [hn, hp, decide_eq_true_eq, decide_eq_false_iff_not]
          rw [if_neg (by simpa using hlt), if_pos (not_lt.mp hlt)]
          cases p <;> simp [setStats, getStats]

private lemma foldl_included_runs (w : Option PyDatetime) (docs : List RunPayload)
    (acc : ScanAcc) :
    (docs.foldl (scanStep w) acc).included_runs =
      acc.included_runs + docs.countP (includedInWindow w) := by
  induction docs generalizing acc with
  | nil => simp
  | cons d rest ih =>
    rw [List.foldl_cons, ih, List.countP_cons, scanStep_included_runs]
    by_cases h : includedInWindow w d <;> (simp [h]; try omega)


private lemma updateStats_runs (st : PipelineStats) (t : PyDatetime)
    (text : String) (d : RunPayload) :
    (updateStats st t text d).runs = st.runs + 1 := by
  unfold updateStats
  by_cases h : toInstant st.latest_dt ≤ toInstant t <;> simp [h]

private lemma scanStep_stats_runs (w : Option PyDatetime) (acc : ScanAcc)
    (d : RunPayload) (p : Pipeline) :
    statsRuns (getStats (scanStep w acc d) p) =
      statsRuns (getStats acc p) +
        (if includedInWindow w d &&
            decide (normalizePipeline d.pipeline = some p) then 1 else 0) := by
  unfold scanStep includedInWindow
  cases hn : normalizePipeline d.pipeline with
  | none => simp [hn]
  | some q =>
    have hstep : ∀ t : PyDatetime, statsRuns (getStats
        (let acc1 := setStats acc q (updateStats ((getStats acc q).getD initStats)
          t (resolvedTimestampText d) d)
         { acc1 with
           total_command_failures := acc1.total_command_failures + d.command_failures
           total_alert_count := acc1.total_alert_count + d.alert_count
           included_runs := acc1.included_runs + 1 }) p) =
        statsRuns (getStats acc p) + (if q = p then 1 else 0) := by
      intro t
      by_cases hq : q = p
      · subst hq
        cases q
        · cases hd : acc.daily <;>
            simp [getStats, setStats, statsRuns, updateStats_runs, hd, initStats]
        · cases hd : acc.weekly <;>
            simp [getStats, setStats, statsRuns, updateStats_runs, hd, initStats]
        · cases hd : acc.monthly <;>
            simp [getStats, setStats, statsRuns, updateStats_runs, hd, initStats]
      · cases q <;> cases p <;> simp_all [getStats, setStats]
    have hstepZ : ∀ t : PyDatetime, statsRuns (getStats
        { daily := (setStats acc q (updateStats ((getStats acc q).getD initStats)
            t (resolvedTimestampText d) d)).daily
          weekly := (setStats acc q (updateStats ((getStats acc q).getD initStats)
            t (resolvedTimestampText d) d)).weekly
          monthly := (setStats acc q (updateStats ((getStats acc q).getD initStats)
            t (resolvedTimestampText d) d)).monthly
          total_command_failures := (setStats acc q (updateStats
            ((getStats acc q).getD initStats)
            t (resolvedTimestampText d) d)).total_command_failures + d.command_failures
          total_alert_count := (setStats acc q (updateStats
            ((getStats acc q).getD initStats)
            t (resolvedTimestampText d) d)).total_alert_count + d.alert_count
          included_runs := (setStats acc q (updateStats
            ((getStats acc q).getD initStats)
            t (resolvedTimestampText d) d)).included_runs + 1 } p) =
        statsRuns (getStats acc p) + (if q = p then 1 else 0) := hstep
    cases hp : parse_timestamp_naive (some (resolvedTimestampText d)) with
    | none => simp [hn, hp]
    | some t =>
      cases w with
      | none =>
        simp only [hn, hp, Bool.false_eq_true, if_false]
        rw [hstep t]
        by_cases hq : q = p <;> simp [hq]
      | some ws =>
        by_cases hlt : toInstant t < toInstant ws
        · simp [hn, hp, hlt, not_le.mpr hlt]
        · simp only [hn, hp]
          rw [if_neg (show ¬(decide (toInstant t < toInstant ws) = true) from
            by simpa using hlt)]
          rw [hstepZ t]
          have hws : toInstant ws ≤ toInstant t := not_lt.mp hlt
          by_cases hq : q = p <;> simp [hq, hws]

private lemma foldl_stats_runs (w : Option PyDatetime) (docs : List RunPayload)
    (acc : ScanAcc) (p : Pipeline) :
    statsRuns (getStats (docs.foldl (scanStep w) acc) p) =
      statsRuns (getStats acc p) +
        docs.countP (fun d => includedInWindow w d &&
          decide (normalizePipeline d.pipeline = some p)) := by
  induction docs generalizing acc with
  | nil => simp
  | cons d rest ih =>
    rw [List.foldl_cons, ih, List.countP_cons, scanStep_stats_runs]
    by_cases h : (includedInWindow w d &&
        decide (normalizePipeline d.pipeline = some p)) = true <;>
      (simp [h]; try omega)


/-- C1 counterexample: a run record whose timestamp is five days after
`now` is still included with a 7-day window — the scanner checks only the
lower bound, so the claim's "t later than now is excluded" fails. -/
theorem c1_future_record_included_counterexample :
    (summarize_pipeline_metrics 7 nowJune2024 [futureDoc]).total_runs = 1 ∧
    parse_timestamp_naive (some (resolvedTimestampText futureDoc)) =
      some ⟨2024, 6, 10, 0, 0, 0, 0⟩ ∧
    toInstant nowJune2024 < toInstant (⟨2024, 6, 10, 0, 0, 0, 0⟩ : PyDatetime) := by
  refine ⟨?_, by decide, by decide⟩
  show ([futureDoc].foldl (scanStep (if (7:ℤ) ≤ 0 then none
    else some (subDaysDt nowJune2024 7))) initAcc).included_runs = 1
  rw [if_neg (by omega)]
  rw [foldl_included_runs]
  decide

/-- C1 (amended): with window size `days > 0` and reference time `now`, a
record is included in the aggregates (counted in `total_runs` and in its
pipeline's `runs`) iff its pipeline is known, its timestamp (from
`finished_at`, falling back to `started_at`) parses, and that timestamp is
at or after `now - days`: the lower bound is inclusive and there is no
upper bound, so records dated after `now` are included as well. -/
theorem c1_window_lower_bound_only (days : ℤ) (now : PyDatetime)
    (docs : List RunPayload) :
    ((summarize_pipeline_metrics days now docs).total_runs =
      docs.countP (includedInWindow
        (if days ≤ 0 then none else some (subDaysDt now days))))
    ∧ (∀ p : Pipeline,
        optRuns (getSummary (summarize_pipeline_metrics days now docs) p) =
          docs.countP (fun d =>
            includedInWindow (if days ≤ 0 then none else some (subDaysDt now days)) d &&
              decide (normalizePipeline d.pipeline = some p)))
    ∧ (0 < days →
        (summarize_pipeline_metrics days now docs).window_start =
          some (subDaysDt now days))
    ∧ (0 < days → ∀ (d : RunPayload) (t : PyDatetime),
        normalizePipeline d.pipeline ≠ none →
        parse_timestamp_naive (some (resolvedTimestampText d)) = some t →
        (includedInWindow (some (subDaysDt now days)) d = true ↔
          toInstant (subDaysDt now days) ≤ toInstant t)) := by
  refine ⟨?_, ?_, ?_, ?_⟩
  · show (docs.foldl (scanStep (if days ≤ 0 then none
      else some (subDaysDt now days))) initAcc).included_runs = _
    rw [foldl_included_runs]
    simp [initAcc]
  · intro p
    have h := foldl_stats_runs (if days ≤ 0 then none else some (subDaysDt now days))
      docs initAcc p
    have hinit : statsRuns (getStats initAcc p) = 0 := by
      cases p <;> rfl
    rw [hinit] at h
    have hopt : optRuns (getSummary (summarize_pipeline_metrics days now docs) p) =
        statsRuns (getStats (docs.foldl (scanStep (if days ≤ 0 then none
          else some (subDaysDt now days))) initAcc) p) := by
      cases p
      · show optRuns (((docs.foldl (scanStep (if days ≤ 0 then none
            else some (subDaysDt now days))) initAcc).daily).map finalizeStats) =
          statsRuns ((docs.foldl (scanStep (if days ≤ 0 then none
            else some (subDaysDt now days))) initAcc).daily)
        cases (docs.foldl (scanStep (if days ≤ 0 then none
          else some (subDaysDt now days))) initAcc).daily <;> rfl
      · show optRuns (((docs.foldl (scanStep (if days ≤ 0 then none
            else some (subDaysDt now days))) initAcc).weekly).map finalizeStats) =
          statsRuns ((docs.foldl (scanStep (if days ≤ 0 then none
            else some (subDaysDt now days))) initAcc).weekly)
        cases (docs.foldl (scanStep (if days ≤ 0 then none
          else some (subDaysDt now days))) initAcc).weekly <;> rfl
      · show optRuns (((docs.foldl (scanStep (if days ≤ 0 then none
            else some (subDaysDt now days))) initAcc).monthly).map finalizeStats) =
          statsRuns ((docs.foldl (scanStep (if days ≤ 0 then none
            else some (subDaysDt now days))) initAcc).monthly)
        cases (docs.foldl (scanStep (if days ≤ 0 then none
          else some (subDaysDt now days))) initAcc).monthly <;> rfl
    rw [hopt, h]
    omega
  · intro hd
    show (if days ≤ 0 then none else some (subDaysDt now days)) = _
    rw [if_neg (by omega)]
  · intro _ d t hn hp
    unfold includedInWindow
    cases hnp : normalizePipeline d.pipeline with
    | none => exact absurd hnp hn
    | some q =>
      rw [hp]
      simp

/-- Witness for `c1_window_lower_bound_only`: a record exactly at
`now - 7 days` is included; one a second earlier is excluded. -/
theorem c1_window_lower_bound_only_witness :
    (summarize_pipeline_metrics 7 nowJune2024
      [{ pipeline := "weekly", finished_at := some "2024-05-29T12:00:00"
         started_at := none, success := true, duration_sec := 30
         command_failures := 0, alert_count := 0 },
       { pipeline := "weekly", finished_at := some "2024-05-29T11:59:59"
         started_at := none, success := true, duration_sec := 30
         command_failures := 0, alert_count := 0 }]).total_runs = 1 ∧
    includedInWindow (some (subDaysDt nowJune2024 7))
      { pipeline := "weekly", finished_at := some "2024-05-29T12:00:00"
        started_at := none, success := true, duration_sec := 30
        command_failures := 0, alert_count := 0 } = true ∧
    includedInWindow (some (subDaysDt nowJune2024 7))
      { pipeline := "weekly", finished_at := some "2024-05-29T11:59:59"
        started_at := none, success := true, duration_sec := 30
        command_failures := 0, alert_count := 0 } = false := by
  have h := c1_window_lower_bound_only 7 nowJune2024
    [{ pipeline := "weekly", finished_at := some "2024-05-29T12:00:00"
       started_at := none, success := true, duration_sec := 30
       command_failures := 0, alert_count := 0 },
     { pipeline := "weekly", finished_at := some "2024-05-29T11:59:59"
       started_at := none, success := true, duration_sec := 30
       command_failures := 0, alert_count := 0 }]
  refine ⟨?_, ?_, by decide⟩
  · rw [h.1]
    decide
  · exact (h.2.2.2 (by omega) _ ⟨2024, 5, 29, 12, 0, 0, 0⟩ (by decide) (by decide)).mpr
      (by decide)

/-! ### Consecutive-failure SLO evaluation (C6) -/

private lemma one_le_warn_limit (raw : RawInt) :
    1 ≤ read_positive_int_env raw 3 1 := by
  cases raw <;> simp only [read_positive_int_env] <;> omega

private lemma leadingFailures_eq_takeWhile (runs : List SloRun) :
    leadingFailures runs = (runs.takeWhile (fun r => !r.success)).length := by
  induction runs with
  | nil => rfl
  | cons r rs ih =>
    unfold leadingFailures
    cases hs : r.success <;> simp [List.takeWhile_cons, hs, ih]

private lemma sloStep_eq (wl cl : ℤ) (runsFor : Pipeline → List SloRun)
    (acc : Severity × List SloViolation) (p : Pipeline) :
    sloStep wl cl runsFor acc p =
      if wl ≤ ((leadingFailures (sortRunsDesc (runsFor p)) : ℤ)) then
        ((if severityRank acc.1 <
              severityRank
                (if cl ≤ ((leadingFailures (sortRunsDesc (runsFor p)) : ℤ)) then
                  Severity.critical
                else Severity.warning) then
            (if cl ≤ ((leadingFailures (sortRunsDesc (runsFor p)) : ℤ)) then
              Severity.critical
            else Severity.warning)
          else acc.1),
         acc.2 ++ [{ pipeline := p
                     consecutive_failures := leadingFailures (sortRunsDesc (runsFor p))
                     latest_run := latestRunText (sortRunsDesc (runsFor p))
                     severity :=
                       (if cl ≤ ((leadingFailures (sortRunsDesc (runsFor p)) : ℤ)) then
                         Severity.critical
                       else Severity.warning) }])
      else acc := rfl

private lemma sloFold_mem (wl cl : ℤ) (runsFor : Pipeline → List SloRun)
    (ps : List Pipeline) (acc : Severity × List SloViolation) (p : Pipeline) :
    (∃ v ∈ (List.foldl (sloStep wl cl runsFor) acc ps).2, v.pipeline = p) ↔
      ((∃ v ∈ acc.2, v.pipeline = p) ∨
        (p ∈ ps ∧ wl ≤ ((leadingFailures (sortRunsDesc (runsFor p)) : ℤ)))) := by
  induction ps generalizing acc with
  | nil => simp
  | cons q qs ih =>
    rw [List.foldl_cons, ih]
    rw [sloStep_eq]
    by_cases hq : wl ≤ ((leadingFailures (sortRunsDesc (runsFor q)) : ℤ))
    · rw [if_pos hq]
      simp only [List.mem_append, List.mem_cons, List.not_mem_nil, or_false]
      constructor
      · rintro (⟨v, hv | hv, hvp⟩ | ⟨hp, hc⟩)
        · exact Or.inl ⟨v, hv, hvp⟩
        · subst hv
          dsimp only at hvp
          subst hvp
          exact Or.inr ⟨Or.inl rfl, hq⟩
        · exact Or.inr ⟨Or.inr hp, hc⟩
      · rintro (⟨v, hv, hvp⟩ | ⟨hp | hp, hc⟩)
        · exact Or.inl ⟨v, Or.inl hv, hvp⟩
        · subst hp
          exact Or.inl ⟨_, Or.inr rfl, rfl⟩
        · exact Or.inr ⟨hp, hc⟩
    · rw [if_neg hq]
      simp only [List.mem_cons]
      constructor
      · rintro (⟨v, hv, hvp⟩ | ⟨hp, hc⟩)
        · exact Or.inl ⟨v, hv, hvp⟩
        · exact Or.inr ⟨Or.inr hp, hc⟩
      · rintro (⟨v, hv, hvp⟩ | ⟨hp | hp, hc⟩)
        · exact Or.inl ⟨v, hv, hvp⟩
        · subst hp
          exact absurd hc hq
        · exact Or.inr ⟨hp, hc⟩

private lemma sloFold_prop (wl cl : ℤ) (runsFor : Pipeline → List SloRun)
    (ps : List Pipeline) (acc : Severity × List SloViolation)
    (hacc : ∀ v ∈ acc.2,
      v.consecutive_failures = leadingFailures (sortRunsDesc (runsFor v.pipeline)) ∧
      (v.severity = Severity.critical ↔ cl ≤ ((v.consecutive_failures : ℤ))) ∧
      (v.severity = Severity.warning ↔ ¬ cl ≤ ((v.consecutive_failures : ℤ)))) :
    ∀ v ∈ (List.foldl (sloStep wl cl runsFor) acc ps).2,
      v.consecutive_failures = leadingFailures (sortRunsDesc (runsFor v.pipeline)) ∧
      (v.severity = Severity.critical ↔ cl ≤ ((v.consecutive_failures : ℤ))) ∧
      (v.severity = Severity.warning ↔ ¬ cl ≤ ((v.consecutive_failures : ℤ))) := by
  induction ps generalizing acc with
  | nil => exact hacc
  | cons q qs ih =>
    rw [List.foldl_cons]
    apply ih
    rw [sloStep_eq]
    by_cases hq : wl ≤ ((leadingFailures (sortRunsDesc (runsFor q)) : ℤ))
    · rw [if_pos hq]
      intro v hv
      dsimp only at hv
      rcases List.mem_append.mp hv with hv | hv
      · exact hacc v hv
      · rcases List.mem_singleton.mp hv with rfl
        refine ⟨rfl, ?_, ?_⟩
        · by_cases hc : cl ≤ ((leadingFailures (sortRunsDesc (runsFor q)) : ℤ)) <;>
            simp [hc]
        · by_cases hc : cl ≤ ((leadingFailures (sortRunsDesc (runsFor q)) : ℤ)) <;>
            simp [hc]
    · rw [if_neg hq]
      exact hacc

private lemma sloFold_fst (wl cl : ℤ) (runsFor : Pipeline → List SloRun)
    (ps : List Pipeline) (acc : Severity × List SloViolation)
    (hacc : acc.1 = acc.2.foldl
      (fun s v => if severityRank s < severityRank v.severity then v.severity
        else s) Severity.none) :
    (List.foldl (sloStep wl cl runsFor) acc ps).1 =
      (List.foldl (sloStep wl cl runsFor) acc ps).2.foldl
        (fun s v => if severityRank s < severityRank v.severity then v.severity
          else s) Severity.none := by
  induction ps generalizing acc with
  | nil => exact hacc
  | cons q qs ih =>
    rw [List.foldl_cons]
    apply ih
    rw [sloStep_eq]
    by_cases hq : wl ≤ ((leadingFailures (sortRunsDesc (runsFor q)) : ℤ))
    · rw [if_pos hq]
      dsimp only
      rw [List.foldl_append]
      simp only [List.foldl_cons, List.foldl_nil]
      rw [← hacc]
    · rw [if_neg hq]
      exact hacc

/-- C6: counterexample. With a warning-limit override of 10 and the
critical-limit variable unset, configuration resolution yields
`critical_limit = 5 < warning_limit = 10`, so the claimed invariant
`warning_limit ≤ critical_limit` fails; a daily pipeline with a 7-failure
streak, which is at or above the critical limit, is then not reported at
all and the overall severity stays `none`, whereas the claimed
classification would report it critical. -/
theorem c6_critical_below_warning_counterexample :
    (evaluate_consecutive_slo_alert (RawInt.num 10) RawInt.missing
        sloDemoRunsFor).critical_limit <
      (evaluate_consecutive_slo_alert (RawInt.num 10) RawInt.missing
        sloDemoRunsFor).warning_limit ∧
    leadingFailures (sortRunsDesc (sloDemoRunsFor Pipeline.daily)) = 7 ∧
    (evaluate_consecutive_slo_alert (RawInt.num 10) RawInt.missing
        sloDemoRunsFor).critical_limit ≤ (7 : ℤ) ∧
    (evaluate_consecutive_slo_alert (RawInt.num 10) RawInt.missing
        sloDemoRunsFor).violated_pipelines = [] ∧
    (evaluate_consecutive_slo_alert (RawInt.num 10) RawInt.missing
        sloDemoRunsFor).severity = Severity.none := by
  decide

/-- C6 (amended): the warning limit resolves with default 3 and minimum 1,
the critical limit with default 5 and minimum the warning limit, and
`warning_limit ≤ critical_limit` holds whenever the critical override
parses (it can fail when the override is missing or unparsable); runs are
stably sorted newest-first and the streak counts the leading failures,
stopping at the first success; a pipeline is reported exactly when its
streak reaches the warning limit, a reported pipeline is critical exactly
when its streak also reaches the critical limit and warning otherwise; the
overall severity is the rank-maximum of the reported severities and
`active` holds exactly when it is not `none`. -/
theorem c6_consecutive_slo_evaluation (warnRaw critRaw : RawInt)
    (runsFor : Pipeline → List SloRun) :
    (evaluate_consecutive_slo_alert warnRaw critRaw runsFor).warning_limit =
        read_positive_int_env warnRaw 3 1 ∧
    (evaluate_consecutive_slo_alert warnRaw critRaw runsFor).critical_limit =
        read_positive_int_env critRaw 5 (read_positive_int_env warnRaw 3 1) ∧
    (∀ v : ℤ, critRaw = RawInt.num v →
      (evaluate_consecutive_slo_alert warnRaw critRaw runsFor).warning_limit ≤
        (evaluate_consecutive_slo_alert warnRaw critRaw runsFor).critical_limit) ∧
    (∀ runs : List SloRun,
      (sortRunsDesc runs).Perm runs ∧
      List.Sorted newerEq (sortRunsDesc runs) ∧
      leadingFailures runs = (runs.takeWhile (fun r => !r.success)).length) ∧
    (∀ p : Pipeline,
      (∃ v ∈ (evaluate_consecutive_slo_alert warnRaw critRaw
          runsFor).violated_pipelines, v.pipeline = p) ↔
        (evaluate_consecutive_slo_alert warnRaw critRaw runsFor).warning_limit ≤
          ((leadingFailures (sortRunsDesc (runsFor p)) : ℤ))) ∧
    (∀ v ∈ (evaluate_consecutive_slo_alert warnRaw critRaw
        runsFor).violated_pipelines,
      v.consecutive_failures = leadingFailures (sortRunsDesc (runsFor v.pipeline)) ∧
      (v.severity = Severity.critical ↔
        (evaluate_consecutive_slo_alert warnRaw critRaw runsFor).critical_limit ≤
          ((v.consecutive_failures : ℤ))) ∧
      (v.severity = Severity.warning ↔
        ¬ (evaluate_consecutive_slo_alert warnRaw critRaw runsFor).critical_limit ≤
          ((v.consecutive_failures : ℤ)))) ∧
    (evaluate_consecutive_slo_alert warnRaw critRaw runsFor).severity =
      (evaluate_consecutive_slo_alert warnRaw critRaw
          runsFor).violated_pipelines.foldl
        (fun s v => if severityRank s < severityRank v.severity then v.severity
          else s) Severity.none ∧
    ((evaluate_consecutive_slo_alert warnRaw critRaw runsFor).active = true ↔
      (evaluate_consecutive_slo_alert warnRaw critRaw runsFor).severity ≠
        Severity.none) := by
  refine ⟨rfl, rfl, ?_, ?_, ?_, ?_, ?_, ?_⟩
  · intro v hv
    subst hv
    exact le_max_left _ _
  · intro runs
    exact ⟨List.perm_insertionSort newerEq runs,
      List.sorted_insertionSort newerEq runs,
      leadingFailures_eq_takeWhile runs⟩
  · intro p
    have hm := sloFold_mem (read_positive_int_env warnRaw 3 1)
      (read_positive_int_env critRaw 5 (read_positive_int_env warnRaw 3 1))
      runsFor (sloPipelines runsFor) (Severity.none, []) p
    simp only [List.not_mem_nil, false_and, exists_false, exists_and_left,
      false_or] at hm
    rw [show (evaluate_consecutive_slo_alert warnRaw critRaw
        runsFor).violated_pipelines =
      (List.foldl (sloStep (read_positive_int_env warnRaw 3 1)
        (read_positive_int_env critRaw 5 (read_positive_int_env warnRaw 3 1))
        runsFor) (Severity.none, []) (sloPipelines runsFor)).2 from rfl]
    rw [hm]
    constructor
    · rintro ⟨-, hc⟩
      exact hc
    · intro hc
      refine ⟨?_, hc⟩
      by_cases he : (runsFor p).isEmpty
      · exfalso
        rw [List.isEmpty_iff] at he
        rw [he] at hc
        have h1 := one_le_warn_limit warnRaw
        have : leadingFailures (sortRunsDesc []) = 0 := rfl
        rw [this] at hc
        have hwv : (evaluate_consecutive_slo_alert warnRaw critRaw
            runsFor).warning_limit = read_positive_int_env warnRaw 3 1 := rfl
        rw [hwv] at hc
        omega
      · refine List.mem_filter.mpr ⟨?_, by simp [he]⟩
        cases p <;> simp
  · intro v hv
    refine sloFold_prop (read_positive_int_env warnRaw 3 1)
      (read_positive_int_env critRaw 5 (read_positive_int_env warnRaw 3 1))
      runsFor (sloPipelines runsFor) (Severity.none, [])
      (fun v hv => absurd hv (List.not_mem_nil v)) v hv
  · exact sloFold_fst (read_positive_int_env warnRaw 3 1)
      (read_positive_int_env critRaw 5 (read_positive_int_env warnRaw 3 1))
      runsFor (sloPipelines runsFor) (Severity.none, []) rfl
  · show decide
        ((List.foldl (sloStep (read_positive_int_env warnRaw 3 1)
          (read_positive_int_env critRaw 5 (read_positive_int_env warnRaw 3 1))
          runsFor) (Severity.none, []) (sloPipelines runsFor)).1 ≠
          Severity.none) = true ↔
      (evaluate_consecutive_slo_alert warnRaw critRaw runsFor).severity ≠
        Severity.none
    exact decide_eq_true_iff

/-- C6 witness: with a warning limit of 2, a critical limit of 4 and seven
consecutive daily failures, the amended theorem reports the daily
pipeline. -/
theorem c6_consecutive_slo_evaluation_witness :
    ∃ v ∈ (evaluate_consecutive_slo_alert (RawInt.num 2) (RawInt.num 4)
        sloDemoRunsFor).violated_pipelines, v.pipeline = Pipeline.daily :=
  ((c6_consecutive_slo_evaluation (RawInt.num 2) (RawInt.num 4)
      sloDemoRunsFor).2.2.2.2.1 Pipeline.daily).mpr (by decide)

end Theorems

end StartRepo
